import Mathlib

/-!
Shallow embedding of the combat and character-progression core of the
`game-2` repository (`src/character.py`, `src/combat.py`, and the item
model of `src/items.py` that those two modules read).

Python `int` values become `ℤ`; Python `float` computations become exact
`ℚ` arithmetic; Python's `int(x)` conversion (truncation toward zero)
becomes `pyInt`.  Randomness (`random.random()`, `random.randint`) is made
explicit: every function that draws randomness takes the drawn values as
arguments.
-/

namespace Game

/-- Python `int(x)` applied to a float: truncation toward zero. -/
def pyInt (q : ℚ) : ℤ := if q < 0 then ⌈q⌉ else ⌊q⌋

/-- Python `//` on ints: floor division. -/
def pyFloorDiv (a b : ℤ) : ℤ := Int.fdiv a b

/-- The stat names that key the Python `base_stats` dictionary. -/
inductive StatName
  | max_hp
  | hp
  | strength
  | defense
  | agility
  | intelligence
  | luck
  deriving DecidableEq, Repr

/-- The `base_stats` dictionary of `Character.__init__`
(`src/character.py` lines 21-29): a fixed-key map. -/
structure BaseStats where
  max_hp : ℤ
  hp : ℤ
  strength : ℤ
  defense : ℤ
  agility : ℤ
  intelligence : ℤ
  luck : ℤ
  deriving DecidableEq, Repr

def BaseStats.get (b : BaseStats) : StatName → ℤ
  | .max_hp => b.max_hp
  | .hp => b.hp
  | .strength => b.strength
  | .defense => b.defense
  | .agility => b.agility
  | .intelligence => b.intelligence
  | .luck => b.luck

/-- `self.base_stats[stat_name] += v` for an arbitrary key. -/
def BaseStats.add (b : BaseStats) (s : StatName) (v : ℤ) : BaseStats :=
  match s with
  | .max_hp => { b with max_hp := b.max_hp + v }
  | .hp => { b with hp := b.hp + v }
  | .strength => { b with strength := b.strength + v }
  | .defense => { b with defense := b.defense + v }
  | .agility => { b with agility := b.agility + v }
  | .intelligence => { b with intelligence := b.intelligence + v }
  | .luck => { b with luck := b.luck + v }

/-- The `equipment_bonuses` dictionary (`src/character.py` lines 32-39):
same keys as `base_stats` except that `hp` is absent. -/
structure EquipBonuses where
  max_hp : ℤ
  strength : ℤ
  defense : ℤ
  agility : ℤ
  intelligence : ℤ
  luck : ℤ
  deriving DecidableEq, Repr

/-- `self.equipment_bonuses.get(stat_name, 0)`: the `hp` key is absent,
so it reads as `0`. -/
def EquipBonuses.get (e : EquipBonuses) : StatName → ℤ
  | .max_hp => e.max_hp
  | .hp => 0
  | .strength => e.strength
  | .defense => e.defense
  | .agility => e.agility
  | .intelligence => e.intelligence
  | .luck => e.luck

/-- `stat in self.equipment_bonuses`: every stat name except `hp`. -/
def EquipBonuses.hasKey : StatName → Bool
  | .hp => false
  | _ => true

/-- `self.equipment_bonuses[stat] += v` (caller checks `hasKey`). -/
def EquipBonuses.add (e : EquipBonuses) (s : StatName) (v : ℤ) : EquipBonuses :=
  match s with
  | .max_hp => { e with max_hp := e.max_hp + v }
  | .hp => e
  | .strength => { e with strength := e.strength + v }
  | .defense => { e with defense := e.defense + v }
  | .agility => { e with agility := e.agility + v }
  | .intelligence => { e with intelligence := e.intelligence + v }
  | .luck => { e with luck := e.luck + v }

/-- `ItemType` enumeration of `src/items.py`. -/
inductive ItemType
  | consumable
  | weapon
  | armor
  | accessory
  | material
  | quest
  deriving DecidableEq, Repr

/-- The `effect_type` string of `Consumable` (`src/items.py` line 63). -/
inductive EffectType
  | heal
  | max_hp_boost
  | revive
  | other
  deriving DecidableEq, Repr

/-- An item as seen by `character.py` / `combat.py`: its type tag, the
consumable effect payload, an optional `stats` attribute (equipment), and
an optional `damage` attribute (weapons).  `none` models the attribute
being absent (`hasattr` returning `False`).  The `stats` dictionary is a
finite key-value list. -/
structure Item where
  name : String := ""
  item_type : ItemType
  effect_type : EffectType := .other
  effect_amount : ℤ := 0
  stats : Option (List (StatName × ℤ)) := none
  damage : Option ℤ := none
  deriving DecidableEq, Repr

/-- The three equipment slots of `Character.equipped`. -/
inductive Slot
  | weapon
  | armor
  | accessory
  deriving DecidableEq, Repr

/-- The player character state (`src/character.py`, `Character.__init__`). -/
structure Character where
  level : ℤ
  xp : ℤ
  xp_to_next_level : ℤ
  base_stats : BaseStats
  equipment_bonuses : EquipBonuses
  equipped_weapon : Option Item
  equipped_armor : Option Item
  equipped_accessory : Option Item
  is_alive : Bool
  gold : ℤ
  stat_points : ℤ
  deriving DecidableEq, Repr

namespace Character

/-- A freshly constructed `Character` (`Character.__init__`). -/
def init : Character where
  level := 1
  xp := 0
  xp_to_next_level := 100
  base_stats :=
    { max_hp := 100, hp := 100, strength := 10, defense := 10
      agility := 10, intelligence := 10, luck := 10 }
  equipment_bonuses :=
    { max_hp := 0, strength := 0, defense := 0
      agility := 0, intelligence := 0, luck := 0 }
  equipped_weapon := none
  equipped_armor := none
  equipped_accessory := none
  is_alive := true
  gold := 50
  stat_points := 5

/-- `Character.get_stat`: base value plus equipment bonus. -/
def get_stat (c : Character) (s : StatName) : ℤ :=
  c.base_stats.get s + c.equipment_bonuses.get s

/-- `Character.get_max_hp`. -/
def get_max_hp (c : Character) : ℤ := c.get_stat .max_hp

/-- `Character.get_current_hp`. -/
def get_current_hp (c : Character) : ℤ := c.base_stats.hp

/-- `Character.heal`: returns the updated character and the actual
amount healed. -/
def heal (c : Character) (amount : ℤ) : Character × ℤ :=
  let old_hp := c.base_stats.hp
  let mhp := c.get_max_hp
  let new_hp := min mhp (c.base_stats.hp + amount)
  ({ c with base_stats := { c.base_stats with hp := new_hp } }, new_hp - old_hp)

/-- `Character.take_damage`: defense halves incoming damage
(`damage_reduction = defense * 0.5`; `actual = max(1, int(damage -
damage_reduction))`), hp is clamped at 0 and the alive flag drops when hp
hits 0.  Returns the updated character and the actual damage taken. -/
def take_damage (c : Character) (damage : ℤ) : Character × ℤ :=
  let defense := c.get_stat .defense
  let actual := max 1 (pyInt ((damage : ℚ) - (defense : ℚ) * (1/2)))
  let hp1 := c.base_stats.hp - actual
  if hp1 ≤ 0 then
    ({ c with base_stats := { c.base_stats with hp := 0 }, is_alive := false }, actual)
  else
    ({ c with base_stats := { c.base_stats with hp := hp1 } }, actual)

/-- `Character.is_dead`. -/
def is_dead (c : Character) : Bool :=
  !c.is_alive || decide (c.base_stats.hp ≤ 0)

/-- `Character.revive`. -/
def revive (c : Character) (hp_percentage : ℚ) : Character :=
  if c.is_alive then c
  else
    let mhp := c.get_max_hp
    { c with is_alive := true
             base_stats := { c.base_stats with hp := pyInt ((mhp : ℚ) * hp_percentage) } }

/-- `Character.level_up`: returns the updated character and whether the
level-up happened. -/
def level_up (c : Character) : Character × Bool :=
  if c.xp < c.xp_to_next_level then (c, false)
  else
    let level1 := c.level + 1
    let xp1 := c.xp - c.xp_to_next_level
    let next1 := pyInt ((100 : ℚ) * (3/2) ^ (level1 - 1))
    let points_gained := 3 + pyFloorDiv level1 5
    let base1 := { c.base_stats with max_hp := c.base_stats.max_hp + 10 }
    let c1 : Character :=
      { c with level := level1, xp := xp1, xp_to_next_level := next1
               stat_points := c.stat_points + points_gained
               base_stats := base1 }
    (({ c1 with base_stats := { c1.base_stats with hp := c1.get_max_hp } }), true)

/-- `Character.add_xp`: intelligence scales incoming xp; a level-up is
attempted when the threshold is reached. -/
def add_xp (c : Character) (amount : ℤ) : Character × Bool :=
  let intel_bonus := (1 : ℚ) + (c.get_stat .intelligence : ℚ) * (1/100)
  let actual_xp := pyInt ((amount : ℚ) * intel_bonus)
  let c1 := { c with xp := c.xp + actual_xp }
  if c1.xp_to_next_level ≤ c1.xp then c1.level_up else (c1, false)

/-- `Character.allocate_stat`: the requested stat is given as
`Option StatName`, `none` standing for a string that is not a key of
`base_stats`. -/
def allocate_stat (c : Character) (stat : Option StatName) (points : ℤ) :
    Character × Bool :=
  match stat with
  | none => (c, false)
  | some s =>
    if s = .hp then (c, false)
    else if c.stat_points < points then (c, false)
    else
      let c1 :=
        if s = .max_hp then
          { c with base_stats :=
              { c.base_stats with
                  max_hp := c.base_stats.max_hp + points * 5
                  hp := c.base_stats.hp + points * 5 } }
        else
          { c with base_stats := c.base_stats.add s points }
      ({ c1 with stat_points := c1.stat_points - points }, true)

/-- Read the `equipped` dictionary at a slot. -/
def getEquipped (c : Character) : Slot → Option Item
  | .weapon => c.equipped_weapon
  | .armor => c.equipped_armor
  | .accessory => c.equipped_accessory

/-- Write the `equipped` dictionary at a slot. -/
def setEquipped (c : Character) (s : Slot) (it : Option Item) : Character :=
  match s with
  | .weapon => { c with equipped_weapon := it }
  | .armor => { c with equipped_armor := it }
  | .accessory => { c with equipped_accessory := it }

/-- The equip loop body of `Character.equip_item` (lines 187-194): add
each stat bonus; a `max_hp` bonus also raises current hp. -/
def applyItemStats (c : Character) : List (StatName × ℤ) → Character
  | [] => c
  | (s, v) :: rest =>
    let c1 :=
      if EquipBonuses.hasKey s then
        let c2 := { c with equipment_bonuses := c.equipment_bonuses.add s v }
        if s = .max_hp then
          { c2 with base_stats := { c2.base_stats with hp := c2.base_stats.hp + v } }
        else c2
      else c
    applyItemStats c1 rest

/-- The unequip loop body of `Character.unequip_item` (lines 209-217):
remove each stat bonus; after removing a `max_hp` bonus, clamp current hp
to the new effective max. -/
def unapplyItemStats (c : Character) : List (StatName × ℤ) → Character
  | [] => c
  | (s, v) :: rest =>
    let c1 :=
      if EquipBonuses.hasKey s then
        let c2 := { c with equipment_bonuses := c.equipment_bonuses.add s (-v) }
        if s = .max_hp then
          { c2 with base_stats :=
              { c2.base_stats with hp := min c2.base_stats.hp c2.get_max_hp } }
        else c2
      else c
    unapplyItemStats c1 rest

/-- `Character.unequip_item`: returns the updated character and the
removed item, if any. -/
def unequip_item (c : Character) (slot : Slot) : Character × Option Item :=
  match c.getEquipped slot with
  | none => (c, none)
  | some item =>
    let c1 :=
      match item.stats with
      | none => c
      | some l => c.unapplyItemStats l
    ((c1.setEquipped slot none), some item)

/-- `Character.equip_item` for a valid slot: unequips the current
occupant, stores the new item, applies its stat payload; returns the
previously equipped item. -/
def equip_item (c : Character) (item : Item) (slot : Slot) : Character × Option Item :=
  let old_item := c.getEquipped slot
  let c1 := if old_item.isSome then (c.unequip_item slot).1 else c
  let c2 := c1.setEquipped slot (some item)
  let c3 :=
    match item.stats with
    | none => c2
    | some l => c2.applyItemStats l
  (c3, old_item)

/-- `Character.get_attack_damage`: twice effective strength plus the
equipped weapon's `damage` attribute when present. -/
def get_attack_damage (c : Character) : ℤ :=
  let base_damage := c.get_stat .strength * 2
  match c.equipped_weapon with
  | some w =>
    match w.damage with
    | some d => base_damage + d
    | none => base_damage
  | none => base_damage

/-- `Character.get_dodge_chance`. -/
def get_dodge_chance (c : Character) : ℚ :=
  min (1/2) ((c.get_stat .agility : ℚ) * (1/100))

/-- `Character.get_crit_chance`. -/
def get_crit_chance (c : Character) : ℚ :=
  min (1/2) ((c.get_stat .luck : ℚ) * (5/1000))

end Character

/-- `Consumable.use` (`src/items.py` lines 66-82): applied to a
character, returns the updated character and the effect message. -/
def Item.use (it : Item) (c : Character) : Character × String :=
  match it.effect_type with
  | .heal =>
    let res := c.heal it.effect_amount
    (res.1, "Healed " ++ toString res.2 ++ " HP!")
  | .max_hp_boost =>
    ({ c with base_stats :=
        { c.base_stats with
            max_hp := c.base_stats.max_hp + it.effect_amount
            hp := c.base_stats.hp + it.effect_amount } },
     "Maximum HP increased by " ++ toString it.effect_amount ++ "!")
  | .revive =>
    if c.is_dead then
      (c.revive ((it.effect_amount : ℚ) / 100),
       "Revived with " ++ toString it.effect_amount ++ "% HP!")
    else (c, "Character is not dead!")
  | .other => (c, "Used item.")

/-- Total `max_hp` payload of an equipment stat list. -/
def statsMaxHp : List (StatName × ℤ) → ℤ
  | [] => 0
  | (s, v) :: rest => (if s = .max_hp then v else 0) + statsMaxHp rest

/-- Every `max_hp` entry of a stat list is nonnegative.  Other entries
are unconstrained: the catalog does contain a negative non-max-hp entry
(Dragon Scale Armor's agility -5), and those entries never touch hp or
the effective max. -/
def nonnegMaxHpStats (l : List (StatName × ℤ)) : Prop :=
  ∀ p ∈ l, p.1 = StatName.max_hp → 0 ≤ p.2

/-- Total `max_hp` payload of an item (0 when it has no `stats`). -/
def Item.maxHpPayload (it : Item) : ℤ :=
  match it.stats with
  | none => 0
  | some l => statsMaxHp l

/-- An item whose `max_hp` payload entries are nonnegative. -/
def Item.nonnegMaxHpPayload (it : Item) : Prop :=
  match it.stats with
  | none => True
  | some l => nonnegMaxHpStats l

/-- The StatBlock invariant of the spec: `0 ≤ hp ≤ effectiveMaxHp`. -/
def Character.hpInv (c : Character) : Prop :=
  0 ≤ c.base_stats.hp ∧ c.base_stats.hp ≤ c.get_max_hp

/-! ## Enemies and combat (`src/combat.py`) -/

/-- An enemy (`Enemy.__init__`).  The loot table is the ordered
key-value list of `item_id -> drop_chance`. -/
structure Enemy where
  name : String
  level : ℤ
  max_hp : ℤ
  hp : ℤ
  strength : ℤ
  defense : ℤ
  agility : ℤ
  xp_reward : ℤ
  gold_reward : ℤ
  loot_table : List (String × ℚ)
  deriving DecidableEq, Repr

namespace Enemy

/-- `Enemy.take_damage`: same defense-halving formula as the player's,
with the hp clamp written as `max(0, hp - actual)`.  Returns the updated
enemy and the actual damage taken. -/
def take_damage (e : Enemy) (damage : ℤ) : Enemy × ℤ :=
  let actual := max 1 (pyInt ((damage : ℚ) - (e.defense : ℚ) * (1/2)))
  ({ e with hp := max 0 (e.hp - actual) }, actual)

/-- `Enemy.is_alive`. -/
def is_alive (e : Enemy) : Bool := decide (0 < e.hp)

/-- `Enemy.get_attack_damage`; `variance` is the `random.randint(-2, 2)`
draw. -/
def get_attack_damage (e : Enemy) (variance : ℤ) : ℤ :=
  max 1 (e.strength * 2 + variance)

/-- `Enemy.get_loot`: one Bernoulli draw per loot-table entry, consumed
in order from the stream `rands`. -/
def get_loot_from : List (String × ℚ) → List ℚ → List String
  | [], _ => []
  | _, [] => []
  | (item_id, drop_chance) :: rest, r :: rs =>
    if r < drop_chance then item_id :: get_loot_from rest rs
    else get_loot_from rest rs

def get_loot (e : Enemy) (rands : List ℚ) : List String :=
  get_loot_from e.loot_table rands

end Enemy

/-- `CombatAction` enumeration. -/
inductive CombatAction
  | ATTACK
  | DEFEND
  | USE_ITEM
  | FLEE
  deriving DecidableEq, Repr

/-- `CombatResult` enumeration. -/
inductive CombatResult
  | ONGOING
  | VICTORY
  | DEFEAT
  | FLED
  deriving DecidableEq, Repr

/-- The two sides iterated by `execute_turn`. -/
inductive Actor
  | player
  | enemy
  deriving DecidableEq, Repr

/-- One combat encounter (`Combat.__init__`). -/
structure Combat where
  character : Character
  enemy : Enemy
  turn_count : ℤ
  result : CombatResult
  combat_log : List String
  is_defending : Bool
  flee_attempts : ℤ
  deriving DecidableEq, Repr

/-- The random draws one `execute_turn` call may consume, made explicit:
the two `randint(0, 10)` turn-order rolls, the crit roll, the dodge roll,
the `randint(-2, 2)` enemy damage variance, and the flee roll. -/
structure TurnRand where
  playerOrderRoll : ℤ
  enemyOrderRoll : ℤ
  critRand : ℚ
  dodgeRand : ℚ
  attackVariance : ℤ
  fleeRand : ℚ
  deriving DecidableEq, Repr

namespace Combat

/-- `Combat.__init__`. -/
def init (c : Character) (e : Enemy) : Combat where
  character := c
  enemy := e
  turn_count := 0
  result := .ONGOING
  combat_log := []
  is_defending := false
  flee_attempts := 0

/-- `Combat.log`. -/
def pushLog (cb : Combat) (message : String) : Combat :=
  { cb with combat_log := cb.combat_log ++ [message] }

/-- `Combat.get_turn_order`: agility plus a `randint(0, 10)` roll per
side; ties favor the player. -/
def get_turn_order (cb : Combat) (playerRoll enemyRoll : ℤ) : List Actor :=
  let player_roll := cb.character.get_stat .agility + playerRoll
  let enemy_roll := cb.enemy.agility + enemyRoll
  if enemy_roll ≤ player_roll then [.player, .enemy] else [.enemy, .player]

/-- The crit attack message returned by `player_attack`. -/
def critMsg (d : ℤ) : String :=
  "💥 CRITICAL HIT! You deal " ++ toString d ++ " damage!"

/-- The crit attack entry written to the combat log. -/
def critLogMsg (name : String) (d : ℤ) : String :=
  "💥 CRITICAL HIT! You deal " ++ toString d ++ " damage to " ++ name ++ "!"

/-- The normal attack message returned by `player_attack`. -/
def normalMsg (d : ℤ) : String :=
  "You deal " ++ toString d ++ " damage!"

/-- The normal attack entry written to the combat log. -/
def normalLogMsg (name : String) (d : ℤ) : String :=
  "You attack " ++ name ++ " for " ++ toString d ++ " damage."

/-- `Combat.player_attack`: crit iff `critRand < crit_chance`; a crit
multiplies the raw damage by 1.5 (truncated). -/
def player_attack (cb : Combat) (critRand : ℚ) : Combat × String :=
  let base_damage := cb.character.get_attack_damage
  let crit_chance := cb.character.get_crit_chance
  if critRand < crit_chance then
    let damage := pyInt ((base_damage : ℚ) * (3/2))
    let res := cb.enemy.take_damage damage
    (({ cb with enemy := res.1 }).pushLog (critLogMsg cb.enemy.name res.2),
     critMsg res.2)
  else
    let res := cb.enemy.take_damage base_damage
    (({ cb with enemy := res.1 }).pushLog (normalLogMsg cb.enemy.name res.2),
     normalMsg res.2)

/-- `Combat.enemy_attack`: dodge roll first; defending halves the damage
(truncated) and clears the flag; the player takes the rest. -/
def enemy_attack (cb : Combat) (dodgeRand : ℚ) (variance : ℤ) : Combat × String :=
  let dodge_chance := cb.character.get_dodge_chance
  if dodgeRand < dodge_chance then
    (cb.pushLog ("You dodge " ++ cb.enemy.name ++ "\x27s attack!"),
     "You dodged the attack!")
  else
    let damage := cb.enemy.get_attack_damage variance
    let dmgCb :=
      if cb.is_defending then
        (pyInt ((damage : ℚ) * (1/2)),
         ({ cb with is_defending := false }).pushLog
           (cb.enemy.name ++ " attacks! Your defense reduces damage."))
      else (damage, cb)
    let res := dmgCb.2.character.take_damage dmgCb.1
    (({ dmgCb.2 with character := res.1 }).pushLog
        (dmgCb.2.enemy.name ++ " attacks you for " ++ toString res.2 ++ " damage!"),
     dmgCb.2.enemy.name ++ " deals " ++ toString res.2 ++ " damage!")

/-- `Combat.player_defend`. -/
def player_defend (cb : Combat) : Combat × String :=
  (({ cb with is_defending := true }).pushLog "You take a defensive stance.",
   "You brace for the next attack!")

/-- `Combat.player_use_item`: fails on a missing item or a
non-consumable; a consumable's effect is applied to the character.
Returns `(success, message, updated combat)`. -/
def player_use_item (cb : Combat) (item : Option Item) : Bool × String × Combat :=
  match item with
  | none => (false, "No item selected.", cb)
  | some it =>
    if it.item_type = .consumable then
      let res := it.use cb.character
      (true, res.2,
       ({ cb with character := res.1 }).pushLog
         ("You use " ++ it.name ++ ". " ++ res.2))
    else (false, "Cannot use that item in combat.", cb)

/-- The flee-chance computation of `Combat.attempt_flee` (lines 207-220):
base 50%, −10% per attempt, +1% per agility point, −5% per level the
enemy is above the player, clamped to [0.1, 0.9]. -/
def computed_flee_chance (attempts agility enemy_level player_level : ℤ) : ℚ :=
  max (1/10) (min (9/10)
    ((1/2) - (attempts : ℚ) * (1/10) + (agility : ℚ) * (1/100)
       - ((enemy_level : ℚ) - (player_level : ℚ)) * (1/20)))

/-- `Combat.attempt_flee`: increments the attempt counter, then draws
against the computed chance.  Returns `(updated combat, success,
message)`. -/
def attempt_flee (cb : Combat) (fleeRand : ℚ) : Combat × Bool × String :=
  let cb1 := { cb with flee_attempts := cb.flee_attempts + 1 }
  let flee_chance :=
    computed_flee_chance cb1.flee_attempts (cb1.character.get_stat .agility)
      cb1.enemy.level cb1.character.level
  if fleeRand < flee_chance then
    (({ cb1 with result := .FLED }).pushLog "You successfully fled from combat!",
     true, "You escaped!")
  else
    (cb1.pushLog "Failed to flee!", false, "Couldn't escape!")

/-- The player's slice of the `execute_turn` loop body (lines 247-271).
Returns the updated combat, the messages this actor produced, and
whether iteration continues (`false` models both `break` and the early
`return`s). -/
def playerStep (cb : Combat) (action : CombatAction) (item : Option Item)
    (r : TurnRand) : Combat × List String × Bool :=
  let afterAction : Combat × List String × Bool :=
    match action with
    | .ATTACK =>
      let res := cb.player_attack r.critRand
      (res.1, [res.2], true)
    | .DEFEND =>
      let res := cb.player_defend
      (res.1, [res.2], true)
    | .USE_ITEM =>
      let res := cb.player_use_item item
      (res.2.2, [res.2.1], res.1)
    | .FLEE =>
      let res := cb.attempt_flee r.fleeRand
      (res.1, [res.2.2], !res.2.1)
  if afterAction.2.2 then
    if afterAction.1.enemy.is_alive then afterAction
    else ({ afterAction.1 with result := .VICTORY }, afterAction.2.1, false)
  else afterAction

/-- The enemy's slice of the `execute_turn` loop body (lines 273-280). -/
def enemyStep (cb : Combat) (r : TurnRand) : Combat × List String × Bool :=
  let res := cb.enemy_attack r.dodgeRand r.attackVariance
  if res.1.character.is_dead then ({ res.1 with result := .DEFEAT }, [res.2], false)
  else (res.1, [res.2], true)

/-- The actor loop of `execute_turn`: stop as soon as the result is no
longer `ONGOING`, or when a step signals an early exit. -/
def runActors (action : CombatAction) (item : Option Item) (r : TurnRand) :
    Combat → List Actor → Combat × List String
  | cb, [] => (cb, [])
  | cb, actor :: rest =>
    if cb.result ≠ .ONGOING then (cb, [])
    else
      let step :=
        match actor with
        | .player => cb.playerStep action item r
        | .enemy => cb.enemyStep r
      if step.2.2 then
        let next := runActors action item r step.1 rest
        (next.1, step.2.1 ++ next.2)
      else (step.1, step.2.1)

/-- `Combat.execute_turn`: bump the turn counter, roll the turn order,
run the actors. -/
def execute_turn (cb : Combat) (action : CombatAction) (item : Option Item)
    (r : TurnRand) : Combat × List String :=
  let cb1 := { cb with turn_count := cb.turn_count + 1 }
  let order := cb1.get_turn_order r.playerOrderRoll r.enemyOrderRoll
  runActors action item r cb1 order

/-- The reward record of `Combat.get_rewards`. -/
structure Rewards where
  xp : ℤ
  gold : ℤ
  loot : List String
  deriving DecidableEq, Repr

/-- `Combat.get_rewards`: zero unless the fight was won; luck adds a
floored percentage gold bonus; loot comes from the enemy's loot table.
`lootRands` is the stream of loot Bernoulli draws. -/
def get_rewards (cb : Combat) (lootRands : List ℚ) : Rewards :=
  if cb.result ≠ .VICTORY then { xp := 0, gold := 0, loot := [] }
  else
    let xp := cb.enemy.xp_reward
    let gold := cb.enemy.gold_reward
    let luck := cb.character.get_stat .luck
    let gold_bonus := pyInt ((gold : ℚ) * ((luck : ℚ) * (1/100)))
    { xp := xp, gold := gold + gold_bonus, loot := cb.enemy.get_loot lootRands }

/-- A sequence of `execute_turn` calls. -/
def runTurns : Combat → List (CombatAction × Option Item × TurnRand) → Combat
  | cb, [] => cb
  | cb, (action, item, r) :: rest =>
    runTurns (cb.execute_turn action item r).1 rest

end Combat

/-- An enemy whose defense is the odd number 3, used as a concrete test
subject; its other stats are those of an early-game enemy. -/
def oddDefenseEnemy : Enemy where
  name := "Slime"
  level := 1
  max_hp := 100
  hp := 100
  strength := 5
  defense := 3
  agility := 3
  xp_reward := 10
  gold_reward := 5
  loot_table := []

/-- A victorious combat against an enemy with a two-entry loot table. -/
def wonCombat : Combat :=
  { Combat.init Character.init
      { oddDefenseEnemy with
          loot_table := [("health_potion_small", 3/10), ("leather_scrap", 1/5)] }
    with result := .VICTORY }

end Game

/-! ## Theorems -/

open Game

theorem pyInt_intCast (n : ℤ) : pyInt (n : ℚ) = n := by
  unfold pyInt
  split <;> simp

theorem pyInt_of_nonneg {q : ℚ} (h : 0 ≤ q) : pyInt q = ⌊q⌋ := by
  unfold pyInt
  split
  · next hlt => exact absurd hlt (not_lt.mpr h)
  · rfl

theorem pyInt_of_neg {q : ℚ} (h : q < 0) : pyInt q = ⌈q⌉ := by
  unfold pyInt
  split
  · rfl
  · next hge => exact absurd h hge

/-- The damage formula `max(1, int(d - f*0.5))` (Python truncation toward
zero) agrees with `max(1, d - ceil(f/2))` on integer inputs. -/
theorem max1_pyInt_half (d f : ℤ) :
    max 1 (pyInt ((d : ℚ) - (f : ℚ) * (1/2))) = max 1 (d - ⌈(f : ℚ) * (1/2)⌉) := by
  rcases Int.even_or_odd f with ⟨k, hk⟩ | ⟨k, hk⟩
  · subst hk
    have h1 : ((k + k : ℤ) : ℚ) * (1/2) = ((k : ℤ) : ℚ) := by push_cast; ring
    rw [h1, Int.ceil_intCast]
    have h2 : (d : ℚ) - ((k : ℤ) : ℚ) = ((d - k : ℤ) : ℚ) := by push_cast; ring
    rw [h2, pyInt_intCast]
  · subst hk
    have hceil : ⌈((2 * k + 1 : ℤ) : ℚ) * (1/2)⌉ = k + 1 := by
      rw [Int.ceil_eq_iff]
      constructor
      · push_cast; linarith
      · push_cast; linarith
    rw [hceil]
    have hval : (d : ℚ) - ((2 * k + 1 : ℤ) : ℚ) * (1/2)
        = ((d - k : ℤ) : ℚ) - 1/2 := by push_cast; ring
    rw [hval]
    rcases le_or_lt (d - k) 0 with hle | hpos
    · have hneg : ((d - k : ℤ) : ℚ) - 1/2 < 0 := by
        have : ((d - k : ℤ) : ℚ) ≤ 0 := by exact_mod_cast hle
        linarith
      rw [pyInt_of_neg hneg]
      have hc : ⌈((d - k : ℤ) : ℚ) - 1/2⌉ = d - k := by
        rw [Int.ceil_eq_iff]
        constructor
        · push_cast; linarith
        · push_cast; linarith
      rw [hc]
      omega
    · have hnn : (0 : ℚ) ≤ ((d - k : ℤ) : ℚ) - 1/2 := by
        have : (1 : ℚ) ≤ ((d - k : ℤ) : ℚ) := by exact_mod_cast hpos
        linarith
      rw [pyInt_of_nonneg hnn]
      have hf : ⌊((d - k : ℤ) : ℚ) - 1/2⌋ = d - k - 1 := by
        rw [Int.floor_eq_iff]
        constructor
        · push_cast; linarith
        · push_cast; linarith
      rw [hf]
      omega

/-- Closed form of `Character.take_damage`. -/
theorem Character.take_damage_eq (c : Character) (d : ℤ) :
    c.take_damage d =
      ({ c with
          base_stats := { c.base_stats with
            hp := max 0 (c.base_stats.hp
              - max 1 (pyInt ((d : ℚ) - (c.get_stat .defense : ℚ) * (1/2)))) }
          is_alive :=
            if c.base_stats.hp
                - max 1 (pyInt ((d : ℚ) - (c.get_stat .defense : ℚ) * (1/2))) ≤ 0
            then false else c.is_alive },
       max 1 (pyInt ((d : ℚ) - (c.get_stat .defense : ℚ) * (1/2)))) := by
  unfold Character.take_damage
  set A := max 1 (pyInt ((d : ℚ) - (c.get_stat .defense : ℚ) * (1/2))) with hA
  by_cases h : c.base_stats.hp - A ≤ 0
  · simp only [if_pos h, Prod.mk.injEq, Character.mk.injEq, BaseStats.mk.injEq,
      and_true, true_and]
    omega
  · simp only [if_neg h, Prod.mk.injEq, Character.mk.injEq, BaseStats.mk.injEq,
      and_true, true_and]
    omega

/-- Closed form of `Enemy.take_damage`. -/
theorem Enemy.take_damage_closed (e : Enemy) (d : ℤ) :
    e.take_damage d =
      ({ e with hp := max 0 (e.hp
          - max 1 (pyInt ((d : ℚ) - (e.defense : ℚ) * (1/2)))) },
       max 1 (pyInt ((d : ℚ) - (e.defense : ℚ) * (1/2)))) := rfl

/-- Closed form of `Combat.attempt_flee`. -/
theorem Combat.attempt_flee_eq (cb : Combat) (r : ℚ) :
    cb.attempt_flee r =
      (if r < Combat.computed_flee_chance (cb.flee_attempts + 1)
          (cb.character.get_stat .agility) cb.enemy.level cb.character.level then
        ({ cb with
            flee_attempts := cb.flee_attempts + 1
            result := .FLED
            combat_log := cb.combat_log ++ ["You successfully fled from combat!"] },
         true, "You escaped!")
      else
        ({ cb with
            flee_attempts := cb.flee_attempts + 1
            combat_log := cb.combat_log ++ ["Failed to flee!"] },
         false, "Couldn't escape!")) := by
  by_cases h : r < Combat.computed_flee_chance (cb.flee_attempts + 1)
      (cb.character.get_stat .agility) cb.enemy.level cb.character.level
  · simp only [Combat.attempt_flee, Combat.pushLog, if_pos h]
  · simp only [Combat.attempt_flee, Combat.pushLog, if_neg h]

/-- Closed form of `Character.level_up` above the threshold. -/
theorem Character.level_up_eq_of_ge (c : Character) (h : c.xp_to_next_level ≤ c.xp) :
    c.level_up =
      ({ c with
          level := c.level + 1
          xp := c.xp - c.xp_to_next_level
          xp_to_next_level := pyInt ((100 : ℚ) * (3/2) ^ (c.level + 1 - 1))
          stat_points := c.stat_points + (3 + pyFloorDiv (c.level + 1) 5)
          base_stats := { c.base_stats with
            max_hp := c.base_stats.max_hp + 10
            hp := c.base_stats.max_hp + 10 + c.equipment_bonuses.max_hp } }, true) := by
  have hnot : ¬ c.xp < c.xp_to_next_level := not_lt.mpr h
  simp only [Character.level_up, hnot, if_false]
  rfl

/-- C1, counterexample.  With defense 3 and raw damage 10 the code deals
`int(10 - 1.5) = 8` damage, but the claim's formula
`max(1, 10 - floor(3 * 0.5)) = 9` predicts 9: the claimed reduction
`floor(defense * 0.5)` does not match the code on odd defense. -/
theorem C1_counterexample :
    (oddDefenseEnemy.take_damage 10).2 = 8 ∧
    max 1 (10 - ⌊(((3 : ℤ) : ℚ)) * (1/2)⌋) = 9 ∧
    (oddDefenseEnemy.take_damage 10).2 ≠ max 1 (10 - ⌊(((3 : ℤ) : ℚ)) * (1/2)⌋) := by
  refine ⟨?_, ?_, ?_⟩ <;> with_unfolding_all decide

/-- C1 (amended: the reduction is `ceil(defense * 0.5)`, not
`floor(defense * 0.5)`; equivalently the code truncates `d - f*0.5`).
For every combatant with defense `f ≥ 0` and raw damage `d ≥ 0`,
`takeDamage d` returns `actual = max(1, d - ceil(f * 0.5)) ≥ 1`, the new
hp is `max(0, hp - actual)`, and for the player the alive flag is set to
`false` exactly when hp reaches 0 (otherwise it is left unchanged). -/
theorem C1_take_damage (c : Character) (e : Enemy) (d : ℤ)
    (hd : 0 ≤ d) (hcf : 0 ≤ c.get_stat .defense) (hef : 0 ≤ e.defense) :
    (c.take_damage d).2 = max 1 (d - ⌈(c.get_stat .defense : ℚ) * (1/2)⌉) ∧
    1 ≤ (c.take_damage d).2 ∧
    (c.take_damage d).1.base_stats.hp = max 0 (c.base_stats.hp - (c.take_damage d).2) ∧
    ((c.take_damage d).1.base_stats.hp = 0 → (c.take_damage d).1.is_alive = false) ∧
    ((c.take_damage d).1.base_stats.hp ≠ 0 → (c.take_damage d).1.is_alive = c.is_alive) ∧
    (e.take_damage d).2 = max 1 (d - ⌈(e.defense : ℚ) * (1/2)⌉) ∧
    1 ≤ (e.take_damage d).2 ∧
    (e.take_damage d).1.hp = max 0 (e.hp - (e.take_damage d).2) := by
  rw [Character.take_damage_eq, Enemy.take_damage_closed]
  refine ⟨?_, ?_, ?_, ?_, ?_, ?_, ?_, ?_⟩
  · exact max1_pyInt_half d _
  · exact le_max_left _ _
  · rfl
  · intro hhp
    simp only at hhp ⊢
    split
    · rfl
    · next hze => omega
  · intro hhp
    simp only at hhp ⊢
    split
    · next hze => omega
    · rfl
  · exact max1_pyInt_half d _
  · exact le_max_left _ _
  · rfl

/-- Concrete instantiation of `C1_take_damage`: the fresh character
(defense 10) hit for 25 loses `25 - 5 = 20` hp, and the formulas hold. -/
theorem C1_witness :
    (Character.init.take_damage 25).2
        = max 1 (25 - ⌈(Character.init.get_stat .defense : ℚ) * (1/2)⌉) ∧
    (Character.init.take_damage 25).1.base_stats.hp
        = max 0 (Character.init.base_stats.hp - (Character.init.take_damage 25).2) := by
  have h := C1_take_damage Character.init oddDefenseEnemy 25
    (by with_unfolding_all decide) (by with_unfolding_all decide)
    (by with_unfolding_all decide)
  exact ⟨h.1, h.2.2.1⟩

/-- C2.  Every flee attempt increments the attempt counter before the
chance is computed; the chance equals
`clamp(0.1, 0.9, 0.5 - 0.1*attempts + 0.01*agility - 0.05*(enemyLevel -
playerLevel))` with the incremented attempt count; the clamp keeps it in
`[0.1, 0.9]` for all inputs; success makes the session result `FLED`. -/
theorem C2_attempt_flee (cb : Combat) (r : ℚ) :
    (cb.attempt_flee r).1.flee_attempts = cb.flee_attempts + 1 ∧
    Combat.computed_flee_chance (cb.flee_attempts + 1)
        (cb.character.get_stat .agility) cb.enemy.level cb.character.level
      = max (1/10) (min (9/10)
          ((1/2) - ((cb.flee_attempts + 1 : ℤ) : ℚ) * (1/10)
             + ((cb.character.get_stat .agility : ℤ) : ℚ) * (1/100)
             - ((cb.enemy.level : ℚ) - (cb.character.level : ℚ)) * (1/20))) ∧
    (∀ attempts agility el pl : ℤ,
        1/10 ≤ Combat.computed_flee_chance attempts agility el pl ∧
        Combat.computed_flee_chance attempts agility el pl ≤ 9/10) ∧
    (r < Combat.computed_flee_chance (cb.flee_attempts + 1)
        (cb.character.get_stat .agility) cb.enemy.level cb.character.level →
      (cb.attempt_flee r).1.result = .FLED ∧ (cb.attempt_flee r).2.1 = true) := by
  rw [Combat.attempt_flee_eq]
  refine ⟨?_, ?_, ?_, ?_⟩
  · split <;> rfl
  · unfold Combat.computed_flee_chance
    push_cast
    ring_nf
  · intro attempts agility el pl
    unfold Combat.computed_flee_chance
    constructor
    · exact le_max_left _ _
    · apply max_le (by norm_num) (min_le_left _ _)
  · intro hsucc
    rw [if_pos hsucc]
    exact ⟨rfl, rfl⟩

/-- Concrete instantiation of `C2_attempt_flee`: the spec's worked
example (first attempt, agility 10, equal levels) gives chance 0.5, and a
draw of 0.3 succeeds. -/
theorem C2_witness :
    ((Combat.init Character.init oddDefenseEnemy).attempt_flee (3/10)).1.result
      = .FLED ∧
    ((Combat.init Character.init oddDefenseEnemy).attempt_flee (3/10)).1.flee_attempts
      = 1 := by
  have h := C2_attempt_flee (Combat.init Character.init oddDefenseEnemy) (3/10)
  refine ⟨(h.2.2.2 ?_).1, h.1⟩
  with_unfolding_all decide

/-- C3.  `levelUp` on a character below the threshold returns false and
mutates nothing; at or above the threshold it returns true, increments
the level, carries the xp remainder over, sets the next threshold to
`floor(100 * 1.5^(level-1))` with the incremented level, grants
`3 + floor(level/5)` stat points (incremented level), raises base max hp
by 10, and restores hp to the new effective max. -/
theorem C3_level_up (c : Character) :
    (c.xp < c.xp_to_next_level → c.level_up = (c, false)) ∧
    (c.xp_to_next_level ≤ c.xp →
      (c.level_up).2 = true ∧
      (c.level_up).1.level = c.level + 1 ∧
      (c.level_up).1.xp = c.xp - c.xp_to_next_level ∧
      (c.level_up).1.xp_to_next_level = ⌊(100 : ℚ) * (3/2) ^ ((c.level + 1) - 1)⌋ ∧
      (c.level_up).1.stat_points = c.stat_points + (3 + pyFloorDiv (c.level + 1) 5) ∧
      (c.level_up).1.base_stats.max_hp = c.base_stats.max_hp + 10 ∧
      (c.level_up).1.base_stats.hp = (c.level_up).1.get_max_hp) := by
  constructor
  · intro hlt
    unfold Character.level_up
    simp [hlt]
  · intro hge
    have hpos : (0 : ℚ) ≤ (100 : ℚ) * (3/2) ^ ((c.level + 1) - 1) := by
      have : (0 : ℚ) < (3/2 : ℚ) ^ ((c.level + 1) - 1) :=
        zpow_pos (by norm_num) _
      linarith
    rw [Character.level_up_eq_of_ge c hge]
    refine ⟨rfl, rfl, rfl, pyInt_of_nonneg hpos, rfl, rfl, ?_⟩
    simp [Character.get_max_hp, Character.get_stat, BaseStats.get, EquipBonuses.get]

/-- `player_attack` leaves the turn counter, flee counter, result,
character, and defending flag unchanged. -/
theorem Combat.player_attack_frame (cb : Combat) (r : ℚ) :
    (cb.player_attack r).1.turn_count = cb.turn_count ∧
    (cb.player_attack r).1.flee_attempts = cb.flee_attempts ∧
    (cb.player_attack r).1.result = cb.result ∧
    (cb.player_attack r).1.character = cb.character ∧
    (cb.player_attack r).1.is_defending = cb.is_defending := by
  unfold Combat.player_attack Combat.pushLog
  dsimp only
  split <;> exact ⟨rfl, rfl, rfl, rfl, rfl⟩

/-- `player_defend` only touches the defending flag and the log. -/
theorem Combat.player_defend_frame (cb : Combat) :
    (cb.player_defend).1.turn_count = cb.turn_count ∧
    (cb.player_defend).1.flee_attempts = cb.flee_attempts ∧
    (cb.player_defend).1.result = cb.result ∧
    (cb.player_defend).1.character = cb.character ∧
    (cb.player_defend).1.enemy = cb.enemy := ⟨rfl, rfl, rfl, rfl, rfl⟩

/-- `player_use_item` only touches the character and the log. -/
theorem Combat.player_use_item_frame (cb : Combat) (item : Option Item) :
    (cb.player_use_item item).2.2.turn_count = cb.turn_count ∧
    (cb.player_use_item item).2.2.flee_attempts = cb.flee_attempts ∧
    (cb.player_use_item item).2.2.result = cb.result ∧
    (cb.player_use_item item).2.2.enemy = cb.enemy ∧
    (cb.player_use_item item).2.2.is_defending = cb.is_defending := by
  unfold Combat.player_use_item Combat.pushLog
  cases item with
  | none => exact ⟨rfl, rfl, rfl, rfl, rfl⟩
  | some it =>
    dsimp only
    split <;> exact ⟨rfl, rfl, rfl, rfl, rfl⟩

/-- `attempt_flee` increments the flee counter, touches nothing else but
the result (only to `FLED`) and the log. -/
theorem Combat.attempt_flee_frame (cb : Combat) (r : ℚ) :
    (cb.attempt_flee r).1.turn_count = cb.turn_count ∧
    (cb.attempt_flee r).1.flee_attempts = cb.flee_attempts + 1 ∧
    (cb.attempt_flee r).1.character = cb.character ∧
    (cb.attempt_flee r).1.enemy = cb.enemy ∧
    (cb.attempt_flee r).1.is_defending = cb.is_defending ∧
    ((cb.attempt_flee r).1.result = cb.result ∨ (cb.attempt_flee r).1.result = .FLED) := by
  rw [Combat.attempt_flee_eq]
  split
  · exact ⟨rfl, rfl, rfl, rfl, rfl, Or.inr rfl⟩
  · exact ⟨rfl, rfl, rfl, rfl, rfl, Or.inl rfl⟩

/-- `enemy_attack` leaves the turn counter, flee counter, result and
enemy unchanged. -/
theorem Combat.enemy_attack_frame (cb : Combat) (rd : ℚ) (v : ℤ) :
    (cb.enemy_attack rd v).1.turn_count = cb.turn_count ∧
    (cb.enemy_attack rd v).1.flee_attempts = cb.flee_attempts ∧
    (cb.enemy_attack rd v).1.result = cb.result ∧
    (cb.enemy_attack rd v).1.enemy = cb.enemy := by
  unfold Combat.enemy_attack Combat.pushLog
  dsimp only
  split
  · exact ⟨rfl, rfl, rfl, rfl⟩
  · split <;> exact ⟨rfl, rfl, rfl, rfl⟩

/-- The player's loop slice keeps the turn counter and can only grow the
flee counter by one. -/
theorem Combat.playerStep_tc_flee (cb : Combat) (action : CombatAction)
    (item : Option Item) (r : TurnRand) :
    (cb.playerStep action item r).1.turn_count = cb.turn_count ∧
    ((cb.playerStep action item r).1.flee_attempts = cb.flee_attempts ∨
     (cb.playerStep action item r).1.flee_attempts = cb.flee_attempts + 1) := by
  obtain ⟨ha1, ha2, -, -, -⟩ := Combat.player_attack_frame cb r.critRand
  obtain ⟨hd1, hd2, -, -, -⟩ := Combat.player_defend_frame cb
  obtain ⟨hu1, hu2, -, -, -⟩ := Combat.player_use_item_frame cb item
  obtain ⟨hf1, hf2, -, -, -, -⟩ := Combat.attempt_flee_frame cb r.fleeRand
  unfold Combat.playerStep
  cases action <;> dsimp only <;> split_ifs <;> simp_all

/-- The enemy's loop slice keeps the turn and flee counters. -/
theorem Combat.enemyStep_tc_flee (cb : Combat) (r : TurnRand) :
    (cb.enemyStep r).1.turn_count = cb.turn_count ∧
    (cb.enemyStep r).1.flee_attempts = cb.flee_attempts := by
  obtain ⟨he1, he2, -, -⟩ := Combat.enemy_attack_frame cb r.dodgeRand r.attackVariance
  unfold Combat.enemyStep
  dsimp only
  split <;> simp_all

/-- The actor loop keeps the turn counter and never decreases the flee
counter. -/
theorem Combat.runActors_tc_flee (action : CombatAction) (item : Option Item)
    (r : TurnRand) (l : List Actor) (cb : Combat) :
    (Combat.runActors action item r cb l).1.turn_count = cb.turn_count ∧
    cb.flee_attempts ≤ (Combat.runActors action item r cb l).1.flee_attempts := by
  induction l generalizing cb with
  | nil => exact ⟨rfl, le_refl _⟩
  | cons a rest ih =>
    unfold Combat.runActors
    split
    · exact ⟨rfl, le_refl _⟩
    · dsimp only
      cases a with
      | player =>
        dsimp only
        have hs := Combat.playerStep_tc_flee cb action item r
        have hrec := ih (cb.playerStep action item r).1
        split
        · dsimp only
          refine ⟨hrec.1.trans hs.1, le_trans ?_ hrec.2⟩
          rcases hs.2 with h | h <;> omega
        · dsimp only
          refine ⟨hs.1, ?_⟩
          rcases hs.2 with h | h <;> omega
      | enemy =>
        dsimp only
        have hs := Combat.enemyStep_tc_flee cb r
        have hrec := ih (cb.enemyStep r).1
        split
        · dsimp only
          refine ⟨hrec.1.trans hs.1, le_trans (le_of_eq hs.2.symm) hrec.2⟩
        · exact ⟨hs.1, le_of_eq hs.2.symm⟩

/-- `execute_turn` adds exactly one to the turn counter and never
decreases the flee counter. -/
theorem Combat.execute_turn_tc_flee (cb : Combat) (action : CombatAction)
    (item : Option Item) (r : TurnRand) :
    (cb.execute_turn action item r).1.turn_count = cb.turn_count + 1 ∧
    cb.flee_attempts ≤ (cb.execute_turn action item r).1.flee_attempts := by
  unfold Combat.execute_turn Combat.get_turn_order
  dsimp only
  split <;>
    exact Combat.runActors_tc_flee action item r _
      { cb with turn_count := cb.turn_count + 1 }

/-- A terminal-result session passes through `execute_turn` untouched
except for the turn counter; no messages are produced. -/
theorem Combat.execute_turn_of_terminal (cb : Combat) (action : CombatAction)
    (item : Option Item) (r : TurnRand) (h : cb.result ≠ .ONGOING) :
    cb.execute_turn action item r = ({ cb with turn_count := cb.turn_count + 1 }, []) := by
  unfold Combat.execute_turn Combat.get_turn_order
  dsimp only
  split <;> simp [Combat.runActors, h]

/-- Invariant propagation along any sequence of turns. -/
theorem Combat.runTurns_inv (steps : List (CombatAction × Option Item × TurnRand))
    (cb : Combat) :
    (0 ≤ cb.turn_count → 0 ≤ (Combat.runTurns cb steps).turn_count) ∧
    cb.flee_attempts ≤ (Combat.runTurns cb steps).flee_attempts ∧
    (cb.result ≠ .ONGOING → (Combat.runTurns cb steps).result = cb.result) := by
  induction steps generalizing cb with
  | nil => exact ⟨fun h => h, le_refl _, fun _ => rfl⟩
  | cons s rest ih =>
    obtain ⟨a, i, r⟩ := s
    have hstep := Combat.execute_turn_tc_flee cb a i r
    have hrec := ih (cb.execute_turn a i r).1
    refine ⟨?_, le_trans hstep.2 hrec.2.1, ?_⟩
    · intro h0
      apply hrec.1
      omega
    · intro hterm
      have heq := Combat.execute_turn_of_terminal cb a i r hterm
      have h1 : (cb.execute_turn a i r).1.result = cb.result := by
        rw [heq]
      have h2 := hrec.2.2 (by rw [h1]; exact hterm)
      unfold Combat.runTurns
      rw [h2, h1]

/-- The crit message and the normal attack message are never equal,
whatever damage numbers they carry. -/
theorem critMsg_ne_normalMsg (d1 d2 : ℤ) : Combat.critMsg d1 ≠ Combat.normalMsg d2 := by
  intro h
  have h2 := congrArg (fun s => s.data.head?) h
  simp only [Combat.critMsg, Combat.normalMsg] at h2
  have h3 : (('💥' : Char) ::
        (" CRITICAL HIT! You deal ".data ++ (toString d1).data ++ " damage!".data)).head?
      = (('Y' : Char) ::
        ("ou deal ".data ++ (toString d2).data ++ " damage!".data)).head? := h2
  simp at h3

/-- The crit log entry and the normal log entry are never equal. -/
theorem critLogMsg_ne_normalLogMsg (nm : String) (d1 d2 : ℤ) :
    Combat.critLogMsg nm d1 ≠ Combat.normalLogMsg nm d2 := by
  intro h
  have h2 := congrArg (fun s => s.data.head?) h
  simp only [Combat.critLogMsg, Combat.normalLogMsg] at h2
  have h3 : (('💥' : Char) ::
        (" CRITICAL HIT! You deal ".data ++ (toString d1).data ++ " damage to ".data
          ++ nm.data ++ "!".data)).head?
      = (('Y' : Char) ::
        ("ou attack ".data ++ nm.data ++ " for ".data ++ (toString d2).data
          ++ " damage.".data)).head? := h2
  simp at h3

/-- When the player wins the turn-order roll and the session is ongoing,
`execute_turn` runs the player slice first and the enemy slice after it
(unless the player slice stops the turn). -/
theorem Combat.execute_turn_player_first (cb : Combat) (action : CombatAction)
    (item : Option Item) (r : TurnRand)
    (hord : cb.enemy.agility + r.enemyOrderRoll
      ≤ cb.character.get_stat .agility + r.playerOrderRoll)
    (hong : cb.result = .ONGOING) :
    cb.execute_turn action item r =
      (let cb1 : Combat := { cb with turn_count := cb.turn_count + 1 }
       let step := cb1.playerStep action item r
       if step.2.2 then
         let next := Combat.runActors action item r step.1 [.enemy]
         (next.1, step.2.1 ++ next.2)
       else (step.1, step.2.1)) := by
  have h1 : ¬ ({ cb with turn_count := cb.turn_count + 1 } : Combat).result
      ≠ CombatResult.ONGOING := by
    simp [hong]
  unfold Combat.execute_turn Combat.get_turn_order
  dsimp only
  rw [if_pos hord]
  conv_lhs => rw [Combat.runActors]
  rw [if_neg h1]

/-- C4.  With the player acting first in an ongoing session: a player
ATTACK that leaves the enemy dead makes the result VICTORY and the enemy
does not act (only the attack message is produced and the character is
untouched); a successful FLEE ends the turn immediately with result FLED
and neither combatant's state changes; a USE_ITEM action with a missing
or non-consumable item aborts the whole turn (only the failure message,
session unchanged except the turn counter); a failed FLEE lets the enemy
still attack (its attack message follows and the character state is the
post-attack one). -/
theorem C4_execute_turn_early_exit (cb : Combat) (item : Option Item) (r : TurnRand)
    (hong : cb.result = .ONGOING)
    (hord : cb.enemy.agility + r.enemyOrderRoll
      ≤ cb.character.get_stat .agility + r.playerOrderRoll) :
    ((({ cb with turn_count := cb.turn_count + 1 } : Combat).player_attack
          r.critRand).1.enemy.is_alive = false →
      (cb.execute_turn .ATTACK item r).1.result = .VICTORY ∧
      (cb.execute_turn .ATTACK item r).2
        = [(({ cb with turn_count := cb.turn_count + 1 } : Combat).player_attack
            r.critRand).2] ∧
      (cb.execute_turn .ATTACK item r).1.character = cb.character) ∧
    (r.fleeRand < Combat.computed_flee_chance (cb.flee_attempts + 1)
        (cb.character.get_stat .agility) cb.enemy.level cb.character.level →
      (cb.execute_turn .FLEE item r).1.result = .FLED ∧
      (cb.execute_turn .FLEE item r).2 = ["You escaped!"] ∧
      (cb.execute_turn .FLEE item r).1.character = cb.character ∧
      (cb.execute_turn .FLEE item r).1.enemy = cb.enemy) ∧
    ((item = none ∨ ∀ it, item = some it → it.item_type ≠ .consumable) →
      (cb.execute_turn .USE_ITEM item r).1
          = { cb with turn_count := cb.turn_count + 1 } ∧
      (cb.execute_turn .USE_ITEM item r).2
        = [(({ cb with turn_count := cb.turn_count + 1 } : Combat).player_use_item
            item).2.1]) ∧
    (¬ r.fleeRand < Combat.computed_flee_chance (cb.flee_attempts + 1)
        (cb.character.get_stat .agility) cb.enemy.level cb.character.level →
      cb.enemy.is_alive = true →
      (cb.execute_turn .FLEE item r).2
        = ["Couldn't escape!",
           (((({ cb with turn_count := cb.turn_count + 1 } : Combat).attempt_flee
               r.fleeRand).1).enemy_attack r.dodgeRand r.attackVariance).2] ∧
      (cb.execute_turn .FLEE item r).1.character
        = (((({ cb with turn_count := cb.turn_count + 1 } : Combat).attempt_flee
            r.fleeRand).1).enemy_attack r.dodgeRand r.attackVariance).1.character) := by
  refine ⟨?_, ?_, ?_, ?_⟩
  · intro hkill
    rw [Combat.execute_turn_player_first cb .ATTACK item r hord hong]
    unfold Combat.playerStep
    try dsimp only
    simp only [hkill, Bool.false_eq_true, if_false, reduceIte]
    try dsimp only
    refine ⟨by trivial, by trivial, ?_⟩
    exact (Combat.player_attack_frame
      ({ cb with turn_count := cb.turn_count + 1 }) r.critRand).2.2.2.1
  · intro hsucc
    rw [Combat.execute_turn_player_first cb .FLEE item r hord hong]
    unfold Combat.playerStep
    try dsimp only
    rw [Combat.attempt_flee_eq]
    try dsimp only
    rw [if_pos hsucc]
    exact ⟨rfl, rfl, rfl, rfl⟩
  · intro hbad
    rw [Combat.execute_turn_player_first cb .USE_ITEM item r hord hong]
    unfold Combat.playerStep Combat.player_use_item
    rcases hbad with hnone | hsome
    · subst hnone
      exact ⟨rfl, rfl⟩
    · match item with
      | none => exact ⟨rfl, rfl⟩
      | some it =>
        have hne : ¬ it.item_type = ItemType.consumable := hsome it rfl
        dsimp only
        rw [if_neg hne]
        exact ⟨rfl, rfl⟩
  · intro hfail halive
    rw [Combat.execute_turn_player_first cb .FLEE item r hord hong]
    unfold Combat.playerStep
    try dsimp only
    rw [Combat.attempt_flee_eq]
    try dsimp only
    rw [if_neg hfail]
    try dsimp only
    simp only [Bool.not_false, Bool.not_true, reduceIte, halive]
    simp only [Combat.runActors, reduceIte, hong, ne_eq, not_true_eq_false,
      not_false_eq_true, if_false, if_true]
    unfold Combat.enemyStep
    try dsimp only
    split <;> exact ⟨rfl, rfl⟩

/-- Concrete instantiation of `C4_execute_turn_early_exit`: killing blow
gives VICTORY with no enemy action; a successful flee gives FLED; USE_ITEM
with no item leaves the session untouched except the turn counter; after
a failed flee the enemy's attack message follows. -/
theorem C4_witness :
    ((Combat.init Character.init { oddDefenseEnemy with hp := 1 }).execute_turn
        .ATTACK none ⟨10, 0, 1, 1, 0, 1⟩).1.result = .VICTORY ∧
    ((Combat.init Character.init oddDefenseEnemy).execute_turn .FLEE none
        ⟨10, 0, 1, 1, 0, 0⟩).1.result = .FLED ∧
    ((Combat.init Character.init oddDefenseEnemy).execute_turn .USE_ITEM none
        ⟨10, 0, 1, 1, 0, 0⟩).1
      = { Combat.init Character.init oddDefenseEnemy with turn_count := 1 } ∧
    ((Combat.init Character.init oddDefenseEnemy).execute_turn .FLEE none
        ⟨10, 0, 1, 1, 0, 1⟩).2
      = ["Couldn't escape!", "Slime deals 5 damage!"] := by
  have h1 := C4_execute_turn_early_exit
    (Combat.init Character.init { oddDefenseEnemy with hp := 1 }) none
    ⟨10, 0, 1, 1, 0, 1⟩ (by with_unfolding_all decide) (by with_unfolding_all decide)
  have h2 := C4_execute_turn_early_exit
    (Combat.init Character.init oddDefenseEnemy) none
    ⟨10, 0, 1, 1, 0, 0⟩ (by with_unfolding_all decide) (by with_unfolding_all decide)
  have h3 := C4_execute_turn_early_exit
    (Combat.init Character.init oddDefenseEnemy) none
    ⟨10, 0, 1, 1, 0, 1⟩ (by with_unfolding_all decide) (by with_unfolding_all decide)
  refine ⟨(h1.1 (by with_unfolding_all decide)).1,
    (h2.2.1 (by with_unfolding_all decide)).1,
    (h2.2.2.1 (Or.inl rfl)).1, ?_⟩
  exact (h3.2.2.2 (by with_unfolding_all decide) (by with_unfolding_all decide)).1.trans
    (by with_unfolding_all decide)

/-- C5.  Over any sequence of `executeTurn` calls (any actions, items and
random draws): the turn counter stays nonnegative (it is 0 on a fresh
session and each turn adds one), the flee counter never decreases, and
the result is monotonic — a terminal result (VICTORY, DEFEAT or FLED)
never changes again, so the only possible move is from ONGOING to one
terminal state. -/
theorem C5_session_invariants (ch : Character) (en : Enemy) (cb : Combat)
    (steps : List (CombatAction × Option Item × TurnRand)) :
    (Combat.init ch en).turn_count = 0 ∧
    (Combat.init ch en).result = .ONGOING ∧
    0 ≤ (Combat.runTurns (Combat.init ch en) steps).turn_count ∧
    (0 ≤ cb.turn_count → 0 ≤ (Combat.runTurns cb steps).turn_count) ∧
    cb.flee_attempts ≤ (Combat.runTurns cb steps).flee_attempts ∧
    (cb.result ≠ .ONGOING → (Combat.runTurns cb steps).result = cb.result) ∧
    ((Combat.runTurns cb steps).result = cb.result ∨ cb.result = .ONGOING) := by
  have hinv := Combat.runTurns_inv steps cb
  refine ⟨rfl, rfl, ?_, hinv.1, hinv.2.1, hinv.2.2, ?_⟩
  · exact (Combat.runTurns_inv steps (Combat.init ch en)).1 (le_refl 0)
  · by_cases h : cb.result = .ONGOING
    · exact Or.inr h
    · exact Or.inl (hinv.2.2 h)

/-- Concrete instantiation of `C5_session_invariants`: two turns of
attacking from a fresh session leave the turn counter at 2 (hence
nonnegative) and the flee counter untouched at 0. -/
theorem C5_witness :
    0 ≤ (Combat.runTurns (Combat.init Character.init oddDefenseEnemy)
        [(.ATTACK, none,
            { playerOrderRoll := 10, enemyOrderRoll := 0, critRand := 1,
              dodgeRand := 1, attackVariance := 0, fleeRand := 1 }),
         (.ATTACK, none,
            { playerOrderRoll := 10, enemyOrderRoll := 0, critRand := 1,
              dodgeRand := 1, attackVariance := 0, fleeRand := 1 })]).turn_count ∧
    ({ Combat.init Character.init oddDefenseEnemy with result := .VICTORY }
        : Combat).flee_attempts
      ≤ (Combat.runTurns
          ({ Combat.init Character.init oddDefenseEnemy with result := .VICTORY })
          [(.FLEE, none,
              { playerOrderRoll := 0, enemyOrderRoll := 0, critRand := 1,
                dodgeRand := 1, attackVariance := 0, fleeRand := 0 })]).flee_attempts ∧
    (Combat.runTurns
        ({ Combat.init Character.init oddDefenseEnemy with result := .VICTORY })
        [(.FLEE, none,
            { playerOrderRoll := 0, enemyOrderRoll := 0, critRand := 1,
              dodgeRand := 1, attackVariance := 0, fleeRand := 0 })]).result
      = .VICTORY := by
  refine ⟨(C5_session_invariants Character.init oddDefenseEnemy
      (Combat.init Character.init oddDefenseEnemy) _).2.2.1, ?_, ?_⟩
  · exact (C5_session_invariants Character.init oddDefenseEnemy
      ({ Combat.init Character.init oddDefenseEnemy with result := .VICTORY }) _).2.2.2.2.1
  · exact (C5_session_invariants Character.init oddDefenseEnemy
      ({ Combat.init Character.init oddDefenseEnemy with result := .VICTORY }) _).2.2.2.2.2.1
      (by with_unfolding_all decide)

/-- C7.  The player's attack damage is twice effective strength plus the
equipped weapon's damage rating when a weapon with a damage attribute is
equipped; a player attack deals `floor(1.5 * attackDamage)` raw damage to
the enemy on a crit (`critRand < critChance`) and exactly `attackDamage`
otherwise, through the enemy's `takeDamage`; crit and normal hits always
produce different messages. -/
theorem C7_player_attack (cb : Combat) (r : ℚ)
    (hnn : 0 ≤ cb.character.get_attack_damage) :
    (cb.character.equipped_weapon = none →
      cb.character.get_attack_damage = 2 * cb.character.get_stat .strength) ∧
    (∀ w wd, cb.character.equipped_weapon = some w → w.damage = some wd →
      cb.character.get_attack_damage = 2 * cb.character.get_stat .strength + wd) ∧
    (r < cb.character.get_crit_chance →
      (cb.player_attack r).1.enemy
          = (cb.enemy.take_damage
              ⌊(3/2 : ℚ) * (cb.character.get_attack_damage : ℚ)⌋).1 ∧
      (cb.player_attack r).2
          = Combat.critMsg (cb.enemy.take_damage
              ⌊(3/2 : ℚ) * (cb.character.get_attack_damage : ℚ)⌋).2 ∧
      (cb.player_attack r).1.combat_log
          = cb.combat_log ++ [Combat.critLogMsg cb.enemy.name
              (cb.enemy.take_damage
                ⌊(3/2 : ℚ) * (cb.character.get_attack_damage : ℚ)⌋).2]) ∧
    (¬ r < cb.character.get_crit_chance →
      (cb.player_attack r).1.enemy
          = (cb.enemy.take_damage cb.character.get_attack_damage).1 ∧
      (cb.player_attack r).2
          = Combat.normalMsg
              (cb.enemy.take_damage cb.character.get_attack_damage).2 ∧
      (cb.player_attack r).1.combat_log
          = cb.combat_log ++ [Combat.normalLogMsg cb.enemy.name
              (cb.enemy.take_damage cb.character.get_attack_damage).2]) ∧
    (∀ d1 d2 : ℤ, Combat.critMsg d1 ≠ Combat.normalMsg d2) ∧
    (∀ nm : String, ∀ d1 d2 : ℤ,
      Combat.critLogMsg nm d1 ≠ Combat.normalLogMsg nm d2) := by
  have hfloor : pyInt ((cb.character.get_attack_damage : ℚ) * (3/2))
      = ⌊(3/2 : ℚ) * (cb.character.get_attack_damage : ℚ)⌋ := by
    rw [mul_comm]
    apply pyInt_of_nonneg
    have h0 : (0 : ℚ) ≤ (cb.character.get_attack_damage : ℚ) := by exact_mod_cast hnn
    linarith
  refine ⟨?_, ?_, ?_, ?_, critMsg_ne_normalMsg, critLogMsg_ne_normalLogMsg⟩
  · intro hw
    simp only [Character.get_attack_damage, hw]
    ring
  · intro w wd hw hd
    simp only [Character.get_attack_damage, hw, hd]
    ring
  · intro hcrit
    unfold Combat.player_attack
    rw [if_pos hcrit, hfloor]
    exact ⟨rfl, rfl, rfl⟩
  · intro hcrit
    unfold Combat.player_attack
    rw [if_neg hcrit]
    exact ⟨rfl, rfl, rfl⟩

/-- Concrete instantiation of `C7_player_attack`: a fresh character
(strength 10, no weapon, luck 10 so critChance 0.05) against the
defense-3 enemy; without a crit the raw damage is 20; with a crit it is
30. -/
theorem C7_witness :
    (Combat.init Character.init oddDefenseEnemy).character.get_attack_damage
        = 2 * Character.init.get_stat .strength ∧
    ((Combat.init Character.init oddDefenseEnemy).player_attack 1).1.enemy
        = (oddDefenseEnemy.take_damage 20).1 ∧
    ((Combat.init Character.init oddDefenseEnemy).player_attack 0).1.enemy
        = (oddDefenseEnemy.take_damage 30).1 := by
  have h := C7_player_attack (Combat.init Character.init oddDefenseEnemy) 1
    (by with_unfolding_all decide)
  have hc := C7_player_attack (Combat.init Character.init oddDefenseEnemy) 0
    (by with_unfolding_all decide)
  refine ⟨h.1 rfl, ?_, ?_⟩
  · have h4 := (h.2.2.2.1 (by with_unfolding_all decide)).1
    exact h4.trans (by with_unfolding_all decide)
  · have h3 := (hc.2.2.1 (by with_unfolding_all decide)).1
    exact h3.trans (by with_unfolding_all decide)

/-- `Enemy.get_loot_from` filters the loot table by comparing each
entry's drop chance against its own dedicated random draw. -/
theorem get_loot_from_eq (tbl : List (String × ℚ)) (rs : List ℚ)
    (h : tbl.length ≤ rs.length) :
    Enemy.get_loot_from tbl rs
      = ((tbl.zip rs).filter (fun x => decide (x.2 < x.1.2))).map (fun x => x.1.1) := by
  induction tbl generalizing rs with
  | nil => simp [Enemy.get_loot_from]
  | cons p rest ih =>
    cases rs with
    | nil => simp at h
    | cons r rs2 =>
      obtain ⟨nm, chance⟩ := p
      simp only [List.length_cons, Nat.add_le_add_iff_right] at h
      by_cases hr : r < chance
      · simp [Enemy.get_loot_from, hr, List.filter, List.zip, ih rs2 h]
      · simp [Enemy.get_loot_from, hr, List.filter, List.zip, ih rs2 h]

/-- C8.  On VICTORY, the rewards are: xp = the enemy's xp reward; gold =
the enemy's gold reward plus `floor(goldReward * 0.01 * luck)`; and the
loot list keeps exactly those loot-table entries whose dedicated random
draw is below their drop chance (independent Bernoulli trials, so any
subset of the table can drop). -/
theorem C8_get_rewards (cb : Combat) (rands : List ℚ)
    (hv : cb.result = .VICTORY) (hg : 0 ≤ cb.enemy.gold_reward)
    (hl : 0 ≤ cb.character.get_stat .luck)
    (hlen : cb.enemy.loot_table.length ≤ rands.length) :
    (cb.get_rewards rands).xp = cb.enemy.xp_reward ∧
    (cb.get_rewards rands).gold
      = cb.enemy.gold_reward
        + ⌊(cb.enemy.gold_reward : ℚ) * (1/100) * (cb.character.get_stat .luck : ℚ)⌋ ∧
    (cb.get_rewards rands).loot
      = ((cb.enemy.loot_table.zip rands).filter
          (fun x => decide (x.2 < x.1.2))).map (fun x => x.1.1) := by
  have hnv : ¬ cb.result ≠ CombatResult.VICTORY := by simp [hv]
  have hgold : pyInt ((cb.enemy.gold_reward : ℚ)
        * ((cb.character.get_stat .luck : ℚ) * (1/100)))
      = ⌊(cb.enemy.gold_reward : ℚ) * (1/100) * (cb.character.get_stat .luck : ℚ)⌋ := by
    have h1 : (cb.enemy.gold_reward : ℚ) * ((cb.character.get_stat .luck : ℚ) * (1/100))
        = (cb.enemy.gold_reward : ℚ) * (1/100) * (cb.character.get_stat .luck : ℚ) := by
      ring
    rw [h1]
    apply pyInt_of_nonneg
    have h2 : (0 : ℚ) ≤ (cb.enemy.gold_reward : ℚ) := by exact_mod_cast hg
    have h3 : (0 : ℚ) ≤ (cb.character.get_stat .luck : ℚ) := by exact_mod_cast hl
    positivity
  unfold Combat.get_rewards
  rw [if_neg hnv]
  exact ⟨rfl, by rw [← hgold], get_loot_from_eq _ _ hlen⟩

/-- Concrete instantiation of `C8_get_rewards`: xp 10, gold 5 + floor(5 *
0.01 * 10) = 5, and draws 0.25 / 0.5 drop the potion but not the scrap. -/
theorem C8_witness :
    (wonCombat.get_rewards [1/4, 1/2]).xp = 10 ∧
    (wonCombat.get_rewards [1/4, 1/2]).gold = 5 ∧
    (wonCombat.get_rewards [1/4, 1/2]).loot = ["health_potion_small"] := by
  have h := C8_get_rewards wonCombat [1/4, 1/2] (by with_unfolding_all decide)
    (by with_unfolding_all decide) (by with_unfolding_all decide)
    (by with_unfolding_all decide)
  refine ⟨h.1.trans (by with_unfolding_all decide),
    (h.2.1).trans ?_, (h.2.2).trans (by with_unfolding_all decide)⟩
  with_unfolding_all decide

/-- C9.  `allocateStat` returns false and mutates nothing when the stat
name is unknown, is `hp`, or the requested points exceed the pool (it is
a total function, so no error is ever raised); on success it deducts the
points and grants `5 * points` to both base max hp and current hp for
`max_hp`, or `1 * points` to the named base stat otherwise. -/
theorem C9_allocate_stat (c : Character) (points : ℤ) :
    (c.allocate_stat none points = (c, false)) ∧
    (c.allocate_stat (some .hp) points = (c, false)) ∧
    (∀ s, c.stat_points < points → c.allocate_stat (some s) points = (c, false)) ∧
    (points ≤ c.stat_points →
      c.allocate_stat (some .max_hp) points
        = ({ c with
              base_stats := { c.base_stats with
                max_hp := c.base_stats.max_hp + points * 5
                hp := c.base_stats.hp + points * 5 }
              stat_points := c.stat_points - points }, true)) ∧
    (∀ s, s ≠ .hp → s ≠ .max_hp → points ≤ c.stat_points →
      c.allocate_stat (some s) points
        = ({ c with
              base_stats := c.base_stats.add s points
              stat_points := c.stat_points - points }, true)) := by
  refine ⟨rfl, ?_, ?_, ?_, ?_⟩
  · simp [Character.allocate_stat]
  · intro s hlt
    unfold Character.allocate_stat
    by_cases hs : s = StatName.hp
    · simp [hs]
    · simp [hs, if_pos hlt]
  · intro hle
    unfold Character.allocate_stat
    simp [not_lt.mpr hle]
  · intro s h1 h2 hle
    unfold Character.allocate_stat
    simp [h1, h2, not_lt.mpr hle]

/-- Concrete instantiation of `C9_allocate_stat`: a fresh character
(5 stat points) cannot allocate 6 points, and allocating 3 points of
strength deducts 3 points and raises base strength to 13. -/
theorem C9_witness :
    Character.init.allocate_stat (some .strength) 6 = (Character.init, false) ∧
    (Character.init.allocate_stat (some .strength) 3).2 = true ∧
    (Character.init.allocate_stat (some .strength) 3).1.base_stats.strength = 13 ∧
    (Character.init.allocate_stat (some .strength) 3).1.stat_points = 2 := by
  have hfail := (C9_allocate_stat Character.init 6).2.2.1 StatName.strength
    (by with_unfolding_all decide)
  have hok := (C9_allocate_stat Character.init 3).2.2.2.2 StatName.strength
    (by with_unfolding_all decide) (by with_unfolding_all decide)
    (by with_unfolding_all decide)
  refine ⟨hfail, ?_, ?_, ?_⟩
  · rw [hok]
  · rw [hok]
    with_unfolding_all decide
  · rw [hok]
    with_unfolding_all decide

/-- C10.  Calling `executeTurn` on a session whose result is already
terminal increments the turn counter by 1, runs no actor actions, and
returns an empty message list; every other field of the session
(character, enemy, log, flags) is unchanged. -/
theorem C10_execute_turn_terminal (cb : Combat) (action : CombatAction)
    (item : Option Item) (r : TurnRand) (h : cb.result ≠ .ONGOING) :
    cb.execute_turn action item r = ({ cb with turn_count := cb.turn_count + 1 }, []) :=
  Combat.execute_turn_of_terminal cb action item r h

/-- Concrete instantiation of `C10_execute_turn_terminal` on a fled
session. -/
theorem C10_witness :
    ({ Combat.init Character.init oddDefenseEnemy with result := .FLED }
        : Combat).execute_turn .ATTACK none
        { playerOrderRoll := 0, enemyOrderRoll := 0, critRand := 1,
          dodgeRand := 1, attackVariance := 0, fleeRand := 1 }
      = ({ Combat.init Character.init oddDefenseEnemy with
            result := .FLED, turn_count := 1 }, []) := by
  have h := C10_execute_turn_terminal
    ({ Combat.init Character.init oddDefenseEnemy with result := .FLED })
    .ATTACK none
    { playerOrderRoll := 0, enemyOrderRoll := 0, critRand := 1,
      dodgeRand := 1, attackVariance := 0, fleeRand := 1 }
    (by with_unfolding_all decide)
  exact h.trans (by with_unfolding_all decide)

/-- Concrete instantiation of `C3_level_up`: the spec scenario.  A fresh
level-1 character with xp exactly 100 levels to 2, the next threshold
becomes 150, stat points grow by 3, max hp by 10, and hp is fully
restored. -/
theorem C3_witness :
    (({ Character.init with xp := 100 } : Character).level_up).2 = true ∧
    (({ Character.init with xp := 100 } : Character).level_up).1.level = 2 ∧
    (({ Character.init with xp := 100 } : Character).level_up).1.xp_to_next_level = 150 ∧
    (({ Character.init with xp := 100 } : Character).level_up).1.stat_points = 8 ∧
    (({ Character.init with xp := 100 } : Character).level_up).1.base_stats.max_hp = 110 ∧
    (({ Character.init with xp := 100 } : Character).level_up).1.base_stats.hp = 110 := by
  have h := (C3_level_up ({ Character.init with xp := 100 })).2
    (by with_unfolding_all decide)
  obtain ⟨h1, h2, h3, h4, h5, h6, h7⟩ := h
  refine ⟨h1, ?_, ?_, ?_, ?_, ?_⟩
  · exact h2.trans (by with_unfolding_all decide)
  · exact h4.trans (by with_unfolding_all decide)
  · exact h5.trans (by with_unfolding_all decide)
  · exact h6.trans (by with_unfolding_all decide)
  · exact h7.trans (by with_unfolding_all decide)

/-- A nonnegative stat list has a nonnegative `max_hp` payload. -/
theorem statsMaxHp_nonneg (l : List (StatName × ℤ)) (h : nonnegMaxHpStats l) :
    0 ≤ statsMaxHp l := by
  induction l with
  | nil => simp [statsMaxHp]
  | cons p rest ih =>
    obtain ⟨s, v⟩ := p
    have hrest : nonnegMaxHpStats rest := fun q hq => h q (List.mem_cons_of_mem _ hq)
    have hr := ih hrest
    simp only [statsMaxHp]
    split
    · next hs =>
      have hv := h ⟨s, v⟩ (List.mem_cons_self _ _) hs
      omega
    · omega

/-- The equip loop preserves the hp invariant for nonnegative payloads. -/
theorem applyItemStats_hpInv (l : List (StatName × ℤ)) (c : Character)
    (hInv : c.hpInv) (hnn : nonnegMaxHpStats l) : (c.applyItemStats l).hpInv := by
  induction l generalizing c with
  | nil => exact hInv
  | cons p rest ih =>
    obtain ⟨s, v⟩ := p
    have hv : s = StatName.max_hp → 0 ≤ v :=
      fun hs => hnn ⟨s, v⟩ (List.mem_cons_self _ _) hs
    have hrest : nonnegMaxHpStats rest := fun q hq => hnn q (List.mem_cons_of_mem _ hq)
    obtain ⟨h1, h2⟩ := hInv
    simp only [Character.applyItemStats]
    apply ih
    · cases s <;>
        simp_all [Character.hpInv, Character.get_max_hp, Character.get_stat,
          BaseStats.get, EquipBonuses.get, EquipBonuses.add, EquipBonuses.hasKey] <;>
        omega
    · exact hrest

/-- The equip loop raises current hp by exactly the `max_hp` payload. -/
theorem applyItemStats_hp (l : List (StatName × ℤ)) (c : Character) :
    (c.applyItemStats l).base_stats.hp = c.base_stats.hp + statsMaxHp l := by
  induction l generalizing c with
  | nil => simp [Character.applyItemStats, statsMaxHp]
  | cons p rest ih =>
    obtain ⟨s, v⟩ := p
    simp only [Character.applyItemStats, statsMaxHp]
    rw [ih]
    cases s <;>
      simp [EquipBonuses.add, EquipBonuses.hasKey] <;>
      omega

/-- The hp invariant, written over raw record fields. -/
theorem hpInv_def (c : Character) :
    c.hpInv ↔ (0 ≤ c.base_stats.hp ∧
      c.base_stats.hp ≤ c.base_stats.max_hp + c.equipment_bonuses.max_hp) :=
  Iff.rfl

/-- The unequip loop preserves the hp invariant when the payload being
removed is nonnegative and not larger than the recorded bonus; it leaves
base max hp alone and subtracts the payload from the bonus. -/
theorem unapplyItemStats_spec (l : List (StatName × ℤ)) (c : Character)
    (hInv : c.hpInv) (hbase : 0 ≤ c.base_stats.max_hp) (hnn : nonnegMaxHpStats l)
    (hsum : statsMaxHp l ≤ c.equipment_bonuses.max_hp) :
    (c.unapplyItemStats l).hpInv ∧
    (c.unapplyItemStats l).base_stats.max_hp = c.base_stats.max_hp ∧
    (c.unapplyItemStats l).equipment_bonuses.max_hp
      = c.equipment_bonuses.max_hp - statsMaxHp l := by
  induction l generalizing c with
  | nil =>
    exact ⟨hInv, rfl, by simp [Character.unapplyItemStats, statsMaxHp]⟩
  | cons p rest ih =>
    obtain ⟨s, v⟩ := p
    have hrest : nonnegMaxHpStats rest := fun q hq => hnn q (List.mem_cons_of_mem _ hq)
    have hrsum := statsMaxHp_nonneg rest hrest
    rw [hpInv_def] at hInv
    obtain ⟨h1, h2⟩ := hInv
    cases s with
    | max_hp =>
      have hv : 0 ≤ v := hnn ⟨StatName.max_hp, v⟩ (List.mem_cons_self _ _) rfl
      have hstep_eq : Character.unapplyItemStats c ((StatName.max_hp, v) :: rest)
          = Character.unapplyItemStats
              ({ c with
                  equipment_bonuses := { c.equipment_bonuses with
                    max_hp := c.equipment_bonuses.max_hp + -v }
                  base_stats := { c.base_stats with
                    hp := min c.base_stats.hp
                      (c.base_stats.max_hp + (c.equipment_bonuses.max_hp + -v)) } })
              rest := by
        simp [Character.unapplyItemStats, EquipBonuses.hasKey, EquipBonuses.add,
          Character.get_max_hp, Character.get_stat, BaseStats.get, EquipBonuses.get]
      have hsum_eq : statsMaxHp ((StatName.max_hp, v) :: rest)
          = v + statsMaxHp rest := by
        simp [statsMaxHp]
      simp only [hsum_eq] at hsum
      rw [hstep_eq, hsum_eq]
      obtain ⟨ha, hb, hc⟩ := ih
        ({ c with
            equipment_bonuses := { c.equipment_bonuses with
              max_hp := c.equipment_bonuses.max_hp + -v }
            base_stats := { c.base_stats with
              hp := min c.base_stats.hp
                (c.base_stats.max_hp + (c.equipment_bonuses.max_hp + -v)) } })
        (by rw [hpInv_def]; constructor <;> simp <;> omega)
        (by simp; omega) hrest (by simp; omega)
      exact ⟨ha, hb.trans (by simp), hc.trans (by simp; omega)⟩
    | hp =>
      have hstep_eq : Character.unapplyItemStats c ((StatName.hp, v) :: rest)
          = Character.unapplyItemStats c rest := by
        simp [Character.unapplyItemStats, EquipBonuses.hasKey]
      have hsum_eq : statsMaxHp ((StatName.hp, v) :: rest) = statsMaxHp rest := by
        simp [statsMaxHp]
      rw [hsum_eq] at hsum
      rw [hstep_eq, hsum_eq]
      exact ih c (by rw [hpInv_def]; exact ⟨h1, h2⟩) hbase hrest (by omega)
    | strength =>
      have hstep_eq : Character.unapplyItemStats c ((StatName.strength, v) :: rest)
          = Character.unapplyItemStats
              ({ c with equipment_bonuses := { c.equipment_bonuses with
                  strength := c.equipment_bonuses.strength + -v } }) rest := by
        simp [Character.unapplyItemStats, EquipBonuses.hasKey, EquipBonuses.add]
      have hsum_eq : statsMaxHp ((StatName.strength, v) :: rest) = statsMaxHp rest := by
        simp [statsMaxHp]
      rw [hsum_eq] at hsum
      rw [hstep_eq, hsum_eq]
      obtain ⟨ha, hb, hc⟩ := ih
        ({ c with equipment_bonuses := { c.equipment_bonuses with
            strength := c.equipment_bonuses.strength + -v } })
        (by rw [hpInv_def]; constructor <;> simp <;> omega)
        (by simp; omega) hrest (by simp; omega)
      exact ⟨ha, hb.trans (by simp), hc.trans (by simp)⟩
    | defense =>
      have hstep_eq : Character.unapplyItemStats c ((StatName.defense, v) :: rest)
          = Character.unapplyItemStats
              ({ c with equipment_bonuses := { c.equipment_bonuses with
                  defense := c.equipment_bonuses.defense + -v } }) rest := by
        simp [Character.unapplyItemStats, EquipBonuses.hasKey, EquipBonuses.add]
      have hsum_eq : statsMaxHp ((StatName.defense, v) :: rest) = statsMaxHp rest := by
        simp [statsMaxHp]
      rw [hsum_eq] at hsum
      rw [hstep_eq, hsum_eq]
      obtain ⟨ha, hb, hc⟩ := ih
        ({ c with equipment_bonuses := { c.equipment_bonuses with
            defense := c.equipment_bonuses.defense + -v } })
        (by rw [hpInv_def]; constructor <;> simp <;> omega)
        (by simp; omega) hrest (by simp; omega)
      exact ⟨ha, hb.trans (by simp), hc.trans (by simp)⟩
    | agility =>
      have hstep_eq : Character.unapplyItemStats c ((StatName.agility, v) :: rest)
          = Character.unapplyItemStats
              ({ c with equipment_bonuses := { c.equipment_bonuses with
                  agility := c.equipment_bonuses.agility + -v } }) rest := by
        simp [Character.unapplyItemStats, EquipBonuses.hasKey, EquipBonuses.add]
      have hsum_eq : statsMaxHp ((StatName.agility, v) :: rest) = statsMaxHp rest := by
        simp [statsMaxHp]
      rw [hsum_eq] at hsum
      rw [hstep_eq, hsum_eq]
      obtain ⟨ha, hb, hc⟩ := ih
        ({ c with equipment_bonuses := { c.equipment_bonuses with
            agility := c.equipment_bonuses.agility + -v } })
        (by rw [hpInv_def]; constructor <;> simp <;> omega)
        (by simp; omega) hrest (by simp; omega)
      exact ⟨ha, hb.trans (by simp), hc.trans (by simp)⟩
    | intelligence =>
      have hstep_eq : Character.unapplyItemStats c ((StatName.intelligence, v) :: rest)
          = Character.unapplyItemStats
              ({ c with equipment_bonuses := { c.equipment_bonuses with
                  intelligence := c.equipment_bonuses.intelligence + -v } }) rest := by
        simp [Character.unapplyItemStats, EquipBonuses.hasKey, EquipBonuses.add]
      have hsum_eq : statsMaxHp ((StatName.intelligence, v) :: rest) = statsMaxHp rest := by
        simp [statsMaxHp]
      rw [hsum_eq] at hsum
      rw [hstep_eq, hsum_eq]
      obtain ⟨ha, hb, hc⟩ := ih
        ({ c with equipment_bonuses := { c.equipment_bonuses with
            intelligence := c.equipment_bonuses.intelligence + -v } })
        (by rw [hpInv_def]; constructor <;> simp <;> omega)
        (by simp; omega) hrest (by simp; omega)
      exact ⟨ha, hb.trans (by simp), hc.trans (by simp)⟩
    | luck =>
      have hstep_eq : Character.unapplyItemStats c ((StatName.luck, v) :: rest)
          = Character.unapplyItemStats
              ({ c with equipment_bonuses := { c.equipment_bonuses with
                  luck := c.equipment_bonuses.luck + -v } }) rest := by
        simp [Character.unapplyItemStats, EquipBonuses.hasKey, EquipBonuses.add]
      have hsum_eq : statsMaxHp ((StatName.luck, v) :: rest) = statsMaxHp rest := by
        simp [statsMaxHp]
      rw [hsum_eq] at hsum
      rw [hstep_eq, hsum_eq]
      obtain ⟨ha, hb, hc⟩ := ih
        ({ c with equipment_bonuses := { c.equipment_bonuses with
            luck := c.equipment_bonuses.luck + -v } })
        (by rw [hpInv_def]; constructor <;> simp <;> omega)
        (by simp; omega) hrest (by simp; omega)
      exact ⟨ha, hb.trans (by simp), hc.trans (by simp)⟩

/-- `setEquipped` never touches the stat block. -/
theorem setEquipped_base (c : Character) (slot : Slot) (it : Option Item) :
    (c.setEquipped slot it).base_stats = c.base_stats ∧
    (c.setEquipped slot it).equipment_bonuses = c.equipment_bonuses := by
  cases slot <;> exact ⟨rfl, rfl⟩

/-- `setEquipped` preserves the hp invariant. -/
theorem setEquipped_hpInv (c : Character) (slot : Slot) (it : Option Item)
    (h : c.hpInv) : (c.setEquipped slot it).hpInv := by
  obtain ⟨hb, he⟩ := setEquipped_base c slot it
  rw [hpInv_def] at h ⊢
  rw [hb, he]
  exact h

/-- `unequip_item` preserves the hp invariant and the sign of base max hp
when the removed item's payload is nonnegative and not larger than the
recorded bonus. -/
theorem unequip_item_spec (c : Character) (slot : Slot)
    (hInv : c.hpInv) (hbase : 0 ≤ c.base_stats.max_hp)
    (hold : ∀ old, c.getEquipped slot = some old → Item.nonnegMaxHpPayload old ∧
        Item.maxHpPayload old ≤ c.equipment_bonuses.max_hp) :
    (c.unequip_item slot).1.hpInv ∧
    0 ≤ (c.unequip_item slot).1.base_stats.max_hp := by
  unfold Character.unequip_item
  cases hcase : c.getEquipped slot with
  | none => exact ⟨hInv, hbase⟩
  | some item =>
    obtain ⟨hn, hm⟩ := hold item hcase
    dsimp only
    cases hstats : item.stats with
    | none =>
      exact ⟨setEquipped_hpInv _ _ _ hInv,
        by rw [(setEquipped_base _ _ _).1]; exact hbase⟩
    | some l =>
      have hn2 : nonnegMaxHpStats l := by
        have := hn
        unfold Item.nonnegMaxHpPayload at this
        rwa [hstats] at this
      have hm2 : statsMaxHp l ≤ c.equipment_bonuses.max_hp := by
        have := hm
        unfold Item.maxHpPayload at this
        rwa [hstats] at this
      obtain ⟨ha, hbmax, -⟩ := unapplyItemStats_spec l c hInv hbase hn2 hm2
      refine ⟨setEquipped_hpInv _ _ _ ha, ?_⟩
      rw [(setEquipped_base _ _ _).1, hbmax]
      exact hbase

/-- `equip_item` preserves the hp invariant under the same payload
conditions (covering the implicit unequip of the replaced item). -/
theorem equip_item_hpInv (c : Character) (item : Item) (slot : Slot)
    (hInv : c.hpInv) (hbase : 0 ≤ c.base_stats.max_hp)
    (hitem : Item.nonnegMaxHpPayload item)
    (hold : ∀ old, c.getEquipped slot = some old → Item.nonnegMaxHpPayload old ∧
        Item.maxHpPayload old ≤ c.equipment_bonuses.max_hp) :
    (c.equip_item item slot).1.hpInv := by
  unfold Character.equip_item
  dsimp only
  by_cases hOld : (c.getEquipped slot).isSome
  · rw [if_pos hOld]
    have hs := unequip_item_spec c slot hInv hbase hold
    cases hstats : item.stats with
    | none => exact setEquipped_hpInv _ _ _ hs.1
    | some l =>
      have hn2 : nonnegMaxHpStats l := by
        have := hitem
        unfold Item.nonnegMaxHpPayload at this
        rwa [hstats] at this
      exact applyItemStats_hpInv l _ (setEquipped_hpInv _ _ _ hs.1) hn2
  · rw [if_neg hOld]
    cases hstats : item.stats with
    | none => exact setEquipped_hpInv _ _ _ hInv
    | some l =>
      have hn2 : nonnegMaxHpStats l := by
        have := hitem
        unfold Item.nonnegMaxHpPayload at this
        rwa [hstats] at this
      exact applyItemStats_hpInv l _ (setEquipped_hpInv _ _ _ hInv) hn2

/-- Equipping into an empty slot raises current hp by exactly the item's
`max_hp` payload. -/
theorem equip_item_hp_delta (c : Character) (item : Item) (slot : Slot)
    (hempty : c.getEquipped slot = none) :
    (c.equip_item item slot).1.base_stats.hp
      = c.base_stats.hp + Item.maxHpPayload item := by
  unfold Character.equip_item
  dsimp only
  rw [hempty]
  simp only [Option.isSome_none, Bool.false_eq_true, if_false]
  cases hstats : item.stats with
  | none =>
    rw [(setEquipped_base _ _ _).1]
    unfold Item.maxHpPayload
    rw [hstats]
    simp
  | some l =>
    rw [applyItemStats_hp, (setEquipped_base _ _ _).1]
    unfold Item.maxHpPayload
    rw [hstats]

/-- Unequipping an item whose payload is a single `max_hp` entry clamps
current hp to the new effective max. -/
theorem unequip_item_clamp (c : Character) (slot : Slot) (old : Item) (v : ℤ)
    (hsome : c.getEquipped slot = some old)
    (hstats : old.stats = some [(.max_hp, v)]) :
    (c.unequip_item slot).1.base_stats.hp
      = min c.base_stats.hp ((c.unequip_item slot).1.get_max_hp) := by
  unfold Character.unequip_item
  rw [hsome]
  dsimp only
  rw [hstats]
  dsimp only
  rw [(setEquipped_base _ _ _).1]
  simp [Character.unapplyItemStats, EquipBonuses.hasKey, EquipBonuses.add,
    Character.get_max_hp, Character.get_stat, BaseStats.get, EquipBonuses.get,
    setEquipped_base]

/-- C6.  The invariant `0 ≤ hp ≤ effectiveMaxHp` holds for a fresh
character and is preserved by `heal` (nonnegative amount), `take_damage`,
`level_up`, `allocate_stat` (nonnegative points), `equip_item` and
`unequip_item`.  The equip/unequip conjuncts require only that the items'
`max_hp` entries are nonnegative (true of every catalog item, including
those with negative entries in other stats, which never touch hp or the
effective max) and that the recorded bonus covers the removed payload.
Moreover equipping into an empty slot raises current hp by exactly the
item's max-hp payload, and unequipping a max-hp item clamps hp to the new
effective max. -/
theorem C6_hp_invariant :
    Character.hpInv Character.init ∧
    (∀ c amount, Character.hpInv c → 0 ≤ amount →
      Character.hpInv (Character.heal c amount).1) ∧
    (∀ c d, Character.hpInv c → Character.hpInv (Character.take_damage c d).1) ∧
    (∀ c, Character.hpInv c → Character.hpInv (Character.level_up c).1) ∧
    (∀ c s points, Character.hpInv c → 0 ≤ points →
      Character.hpInv (Character.allocate_stat c s points).1) ∧
    (∀ c item slot, Character.hpInv c → 0 ≤ c.base_stats.max_hp →
      Item.nonnegMaxHpPayload item →
      (∀ old, Character.getEquipped c slot = some old → Item.nonnegMaxHpPayload old ∧
        Item.maxHpPayload old ≤ c.equipment_bonuses.max_hp) →
      Character.hpInv (Character.equip_item c item slot).1) ∧
    (∀ c slot, Character.hpInv c → 0 ≤ c.base_stats.max_hp →
      (∀ old, Character.getEquipped c slot = some old → Item.nonnegMaxHpPayload old ∧
        Item.maxHpPayload old ≤ c.equipment_bonuses.max_hp) →
      Character.hpInv (Character.unequip_item c slot).1) ∧
    (∀ c item slot, Character.getEquipped c slot = none →
      (Character.equip_item c item slot).1.base_stats.hp
        = c.base_stats.hp + Item.maxHpPayload item) ∧
    (∀ c slot old v, Character.getEquipped c slot = some old →
      old.stats = some [(.max_hp, v)] →
      (Character.unequip_item c slot).1.base_stats.hp
        = min c.base_stats.hp ((Character.unequip_item c slot).1.get_max_hp)) := by
  refine ⟨?_, ?_, ?_, ?_, ?_, ?_, ?_, ?_, ?_⟩
  · rw [hpInv_def]
    constructor <;> with_unfolding_all decide
  · intro c amount h hA
    rw [hpInv_def] at h
    unfold Character.heal
    rw [hpInv_def]
    constructor <;>
      simp [Character.get_max_hp, Character.get_stat, BaseStats.get,
        EquipBonuses.get] <;>
      omega
  · intro c d h
    rw [Character.take_damage_eq]
    rw [hpInv_def] at h
    rw [hpInv_def]
    have hA : (1 : ℤ) ≤ max 1 (pyInt ((d : ℚ) - (c.get_stat .defense : ℚ) * (1/2))) :=
      le_max_left _ _
    constructor <;> simp <;> omega
  · intro c h
    by_cases hxp : c.xp < c.xp_to_next_level
    · unfold Character.level_up
      simp only [hxp, if_true, reduceIte]
      exact h
    · rw [Character.level_up_eq_of_ge c (not_lt.mp hxp)]
      rw [hpInv_def] at h
      rw [hpInv_def]
      constructor <;> simp <;> omega
  · intro c s points h hp0
    cases s with
    | none => exact h
    | some st =>
      rw [hpInv_def] at h
      cases st with
      | max_hp =>
        unfold Character.allocate_stat
        dsimp only
        split_ifs <;> rw [hpInv_def] <;> constructor <;>
          simp_all [BaseStats.add] <;> omega
      | hp =>
        unfold Character.allocate_stat
        dsimp only
        split_ifs <;> rw [hpInv_def] <;> constructor <;>
          simp_all [BaseStats.add] <;> omega
      | strength =>
        unfold Character.allocate_stat
        dsimp only
        split_ifs <;> rw [hpInv_def] <;> constructor <;>
          simp_all [BaseStats.add] <;> omega
      | defense =>
        unfold Character.allocate_stat
        dsimp only
        split_ifs <;> rw [hpInv_def] <;> constructor <;>
          simp_all [BaseStats.add] <;> omega
      | agility =>
        unfold Character.allocate_stat
        dsimp only
        split_ifs <;> rw [hpInv_def] <;> constructor <;>
          simp_all [BaseStats.add] <;> omega
      | intelligence =>
        unfold Character.allocate_stat
        dsimp only
        split_ifs <;> rw [hpInv_def] <;> constructor <;>
          simp_all [BaseStats.add] <;> omega
      | luck =>
        unfold Character.allocate_stat
        dsimp only
        split_ifs <;> rw [hpInv_def] <;> constructor <;>
          simp_all [BaseStats.add] <;> omega
  · intro c item slot h hbase hitem hold
    exact equip_item_hpInv c item slot h hbase hitem hold
  · intro c slot h hbase hold
    exact (unequip_item_spec c slot h hbase hold).1
  · intro c item slot hempty
    exact equip_item_hp_delta c item slot hempty
  · intro c slot old v hsome hstats
    exact unequip_item_clamp c slot old v hsome hstats

/-- Concrete instantiation of `C6_hp_invariant`: the invariant holds
after healing a fresh character by 30 and after a 50-damage hit, and
equipping a +20 max-hp armor into the empty armor slot raises hp from
100 to 120 while keeping the invariant. -/
theorem C6_witness :
    Character.hpInv (Character.heal Character.init 30).1 ∧
    Character.hpInv (Character.take_damage Character.init 50).1 ∧
    (Character.equip_item Character.init
        { item_type := .armor, stats := some [(.max_hp, 20)] } .armor).1.base_stats.hp
      = 120 ∧
    Character.hpInv (Character.equip_item Character.init
        { name := "Dragon Scale Armor", item_type := .armor,
          stats := some [(.max_hp, 150), (.strength, 10), (.defense, 60),
            (.agility, -5)] } .armor).1 ∧
    (Character.equip_item Character.init
        { name := "Dragon Scale Armor", item_type := .armor,
          stats := some [(.max_hp, 150), (.strength, 10), (.defense, 60),
            (.agility, -5)] } .armor).1.base_stats.hp
      = 250 := by
  have h := C6_hp_invariant
  refine ⟨h.2.1 Character.init 30 h.1 (by with_unfolding_all decide),
    h.2.2.1 Character.init 50 h.1, ?_, ?_, ?_⟩
  · refine (h.2.2.2.2.2.2.2.1 Character.init
      { item_type := .armor, stats := some [(.max_hp, 20)] } .armor ?_).trans ?_
    · with_unfolding_all decide
    · with_unfolding_all decide
  · refine h.2.2.2.2.2.1 Character.init
      { name := "Dragon Scale Armor", item_type := .armor,
        stats := some [(.max_hp, 150), (.strength, 10), (.defense, 60),
          (.agility, -5)] } .armor h.1
      (by with_unfolding_all decide) ?_ ?_
    · intro p hp hs
      simp only [List.mem_cons, List.not_mem_nil, or_false] at hp
      rcases hp with rfl | rfl | rfl | rfl <;> simp_all
    · intro old hold
      simp [Character.getEquipped, Character.init] at hold
  · refine (h.2.2.2.2.2.2.2.1 Character.init
      { name := "Dragon Scale Armor", item_type := .armor,
        stats := some [(.max_hp, 150), (.strength, 10), (.defense, 60),
          (.agility, -5)] } .armor ?_).trans ?_
    · with_unfolding_all decide
    · with_unfolding_all decide
